/-
  Verification of pubnix-domain-watcher (src/main.ts).

  Shallow embedding: strings are modelled as `List Char` (`Str`); the two
  trigger regexes, JS `String.prototype.split` / `trim` / `replace`, the
  provisioning pipeline (`createDomain`), the decommission pipeline
  (`removeDomain`) and the `Deno.watchFs` event loop are translated into
  executable Lean functions.  External commands and fallible filesystem
  operations are supplied by explicit oracle structures (`CreateWorld`,
  `RemoveWorld`); every filesystem effect a run performs is recorded in a
  trace of `Action`s.  Console logging is not modelled (it has no effect on
  any claim).
-/
import Mathlib

set_option maxRecDepth 4000

namespace PubnixWatcher

/-- Strings of the embedded program, modelled as lists of characters. -/
abbrev Str := List Char

/-! ## Trigger classifier (src/main.ts lines 7-8, 11, 178)

`domainRegex = /^\/home\/[^\/]*\/.domain$/` (the dot before `domain` is an
UNESCAPED regex dot: it matches any non-line-terminator character), and
similarly `removeDomainRegex`.  Since `[^/]*` cannot match `/`, the `\/`
following it necessarily matches the first `/` after the `/home/` prefix, so
the regex test is equivalent to: strip `/home/`, split at the first `/`, and
require the remainder to be one any-character followed by the literal tail. -/

/-- JS regex `.` without the `s` flag: any character except a line terminator. -/
def isDotChar (c : Char) : Bool :=
  !(c == '\n' || c == '\r' || c == '\u2028' || c == '\u2029')

/-- The watched root prefix `/home/`. -/
def homeSlash : Str := "/home/".data

/-- Splits a list at the first `'/'`: returns the (slash-free) part before it
and the part after it, or `none` when no slash occurs. -/
def splitAtFirstSlash : Str → Option (Str × Str)
  | [] => none
  | c :: t =>
    if c = '/' then some ([], t)
    else (splitAtFirstSlash t).map (fun p => (c :: p.1, p.2))

/-- Matches the regex fragment `.tail$`: one any-character (unescaped dot)
followed by exactly `tail`. -/
def dotThen (tail r : Str) : Bool :=
  match r with
  | [] => false
  | c :: rest => isDotChar c && rest == tail

/-- Embeds `domainRegex.test(path)` (src/main.ts line 7). -/
def testDomainRegex (p : Str) : Bool :=
  if homeSlash.isPrefixOf p then
    match splitAtFirstSlash (p.drop 6) with
    | none => false
    | some q => dotThen "domain".data q.2
  else false

/-- Embeds `removeDomainRegex.test(path)` (src/main.ts line 8). -/
def testRemoveDomainRegex (p : Str) : Bool :=
  if homeSlash.isPrefixOf p then
    match splitAtFirstSlash (p.drop 6) with
    | none => false
    | some q => dotThen "remove-domain".data q.2
  else false

/-- Embeds JS `String.prototype.split` with a one-character separator
(empty segments included, as in JS). -/
def jsSplit (sep : Char) : Str → List Str
  | [] => [[]]
  | c :: t =>
    if c = sep then [] :: jsSplit sep t
    else
      match jsSplit sep t with
      | [] => [[c]]
      | h :: r => (c :: h) :: r

/-- Embeds `path.split("/")[2]` (src/main.ts lines 11 and 178); trigger paths
always have a third segment, the modelling default `[]` is never reached for
an accepted path. -/
def extractDomain (p : Str) : Str := (jsSplit '/' p).getD 2 []

/-- Modelled from the spec: a path of exactly the shape `/home/<user>/.domain`
with a single (slash-free) path segment between the watched root and the
literal filename `.domain`. -/
def isCreateTriggerShape (l : Str) : Bool :=
  decide (14 ≤ l.length) && l.take 6 == homeSlash
    && l.drop (l.length - 8) == "/.domain".data
    && !((l.drop 6).take (l.length - 14)).contains '/'

/-- Modelled from the spec: a path of exactly the shape
`/home/<user>/.remove-domain`. -/
def isRemoveTriggerShape (l : Str) : Bool :=
  decide (21 ≤ l.length) && l.take 6 == homeSlash
    && l.drop (l.length - 15) == "/.remove-domain".data
    && !((l.drop 6).take (l.length - 21)).contains '/'

/-! ## JS string primitives used by the pipelines -/

/-- JS whitespace (the set trimmed by `String.prototype.trim`). -/
def isJsWs (c : Char) : Bool :=
  c == ' ' || c == '\t' || c == '\n' || c == '\r' || c == '\x0b' || c == '\x0c'
    || c == '\u00a0' || c == '\ufeff' || c == '\u2028' || c == '\u2029'

/-- Embeds JS `String.prototype.trim`. -/
def jsTrim (s : Str) : Str :=
  ((s.dropWhile isJsWs).reverse.dropWhile isJsWs).reverse

/-- Index of the first occurrence of `pat` in `s` (JS `indexOf` semantics). -/
def firstOccurIdx : Str → Str → Option Nat
  | [], pat => if pat.isPrefixOf ([] : Str) then some 0 else none
  | c :: t, pat =>
    if pat.isPrefixOf (c :: t) then some 0
    else (firstOccurIdx t pat).map (· + 1)

/-- Embeds JS `String.prototype.replace` with a string pattern: only the FIRST
occurrence of `pat` (anywhere in `s`, not only as a prefix) is replaced. -/
def jsReplaceFirst (s pat rep : Str) : Str :=
  match firstOccurIdx s pat with
  | none => s
  | some i => s.take i ++ rep ++ s.drop (i + pat.length)

/-- The literal `` `${domain}. IN DS ` `` pattern of src/main.ts line 130. -/
def dsPre (domain : Str) : Str := domain ++ ". IN DS ".data

/-- The pure stdout-to-DS-record transformation of `generateDsRecord`
(src/main.ts line 130): `stdout.replace(domain + ". IN DS ", "").trim()`. -/
def dsFromOutput (domain out : Str) : Str :=
  jsTrim (jsReplaceFirst out (dsPre domain) [])

/-- Modelled from the spec: strip exactly the literal PREFIX
`<domain>. IN DS ` from the tool output (when the output starts with it,
as the tool contract promises) and trim surrounding whitespace; an output
not carrying the prefix is merely trimmed. -/
def specDsStrip (domain out : Str) : Str :=
  if (dsPre domain).isPrefixOf out then jsTrim (out.drop (dsPre domain).length)
  else jsTrim out

/-! ## Effects, command results, configuration -/

/-- Result of one external command invocation (`Deno.Command.output()`):
exit code, decoded stdout, decoded stderr. -/
structure CmdResult where
  code : Nat
  stdout : Str
  stderr : Str

/-- The environment file consumed via `load()` (only `NS`, `A`, `AAAA` are
read by the program). -/
structure EnvCfg where
  NS : Str
  A : Str
  AAAA : Str

/-- One observable effect of a pipeline run: an external command invocation
(with argument list and environment overrides), a successful
`Deno.writeTextFile`, or a successful `Deno.remove`.  Failed writes/removes
raise instead and are not recorded. -/
inductive Action where
  | runCmd (prog : Str) (args : List Str) (envv : List (Str × Str))
  | writeFile (path content : Str)
  | removeFile (path : Str)
deriving DecidableEq

/-- Artifact path `/etc/ssl/certs/<domain>.crt`. -/
def crtPath (d : Str) : Str := "/etc/ssl/certs/".data ++ d ++ ".crt".data

/-- Artifact path `/etc/ssl/private/<domain>.key`. -/
def keyPath (d : Str) : Str := "/etc/ssl/private/".data ++ d ++ ".key".data

/-- Artifact path `/etc/coredns/zones/db.<domain>`. -/
def zonePath (d : Str) : Str := "/etc/coredns/zones/db.".data ++ d

/-- Artifact path `/etc/coredns/corefiles/<domain>.Corefile`. -/
def corefilePath (d : Str) : Str :=
  "/etc/coredns/corefiles/".data ++ d ++ ".Corefile".data

/-- Artifact path `/etc/caddy/caddyfiles/<domain>.Caddyfile`. -/
def caddyfilePath (d : Str) : Str :=
  "/etc/caddy/caddyfiles/".data ++ d ++ ".Caddyfile".data

/-- The literal part of the DNSSEC key glob `/etc/coredns/keys/K<domain>.+013+*`
(src/main.ts line 226): the `*` wildcard makes it match every path having this
as a prefix. -/
def keysGlobPre (d : Str) : Str :=
  "/etc/coredns/keys/K".data ++ d ++ ".+013+".data

/-- The zone-file template of `createZoneFile` (src/main.ts lines 75-89). -/
def zoneContents (ecfg : EnvCfg) (d tlsaRecord : Str) : Str :=
  "\n$TTL 3600\n@ IN SOA  ns1.pubnix. ".data ++ d
    ++ ".pubnix. (\n\t  2023010101 ; serial\n\t  3600       ; refresh (1 hour)\n\t  1800       ; retry (30 minutes)\n\t  604800     ; expire (1 week)\n\t  3600       ; minimum (1 hour)\n\t  )\n  IN NS   ns1.pubnix.\n  IN A    ".data
    ++ ecfg.A ++ "\n  IN AAAA ".data ++ ecfg.AAAA
    ++ "\n\n_443._tcp IN TLSA ".data ++ tlsaRecord ++ "\n    ".data

/-- The Corefile template of `generateCorefile` (src/main.ts lines 108-116). -/
def corefileContents (d keyFile : Str) : Str :=
  "\n".data ++ d
    ++ " \x7b\n    bind enp1s0\n    file zones/db.".data ++ d
    ++ "\n    dnssec \x7b\n        key file keys/".data ++ keyFile
    ++ "\n    \x7d\n\x7d\n    ".data

/-- The Caddyfile template of `generateCaddyFile` (src/main.ts lines 147-154). -/
def caddyfileContents (d : Str) : Str :=
  "\n".data ++ d ++ " \x7b\n    root * /home/".data ++ d
    ++ "/public_html\n    file_server\n\n    tls /etc/ssl/certs/".data ++ d
    ++ ".crt /etc/ssl/private/".data ++ d ++ ".key\n\x7d\n    ".data

/-- The success message template of `createDomain` (src/main.ts lines 26-40). -/
def successMessage (ecfg : EnvCfg) (d dsRecord tlsaRecord : Str) : Str :=
  "\nDomain ".data ++ d
    ++ " added successfully!\n\nConfigure your domain to use pubnix/ as the nameserver (Bob Wallet, Shakestation, Namebase):\nNS: ".data
    ++ ecfg.NS ++ "\nDS: ".data ++ dsRecord
    ++ "\n\nor, using your own nameservers configure the following records (Varo, Namebase):\nA: ".data
    ++ d ++ ". ".data ++ ecfg.A ++ "\nAAAA: ".data ++ d ++ ". ".data ++ ecfg.AAAA
    ++ "\nTLSA: _443._tcp.".data ++ d ++ ". ".data ++ tlsaRecord
    ++ "\n\nYou can remove the domain with the following command (run from your home directory):\ntouch .remove-domain\n        ".data

/-- The `Error: ` status marker (src/main.ts lines 47 and 195). -/
def errTag : Str := "Error: ".data

/-! ## Provisioning pipeline (`createDomain`, src/main.ts lines 10-175)

Oracle for one provisioning run: the outcome of each external command and of
each fallible filesystem operation the run may attempt, in source order. -/

/-- Outcomes the environment supplies to one `createDomain` run. -/
structure CreateWorld where
  certs : CmdResult
  tlsa : CmdResult
  keygen : CmdResult
  dsfromkey : CmdResult
  validate : CmdResult
  restart : CmdResult
  reload : CmdResult
  writeZone : Except Str Unit
  writeCorefile : Except Str Unit
  writeCaddy : Except Str Unit
  removeCaddy : Except Str Unit
  writeTriggerTry : Except Str Unit
  writeTriggerCatch : Except Str Unit

/-- Embeds `generateCertificates` (src/main.ts lines 53-71): runs
`bash certificates.sh` then `bash tlsa.sh`, throwing on a non-zero exit and
returning the trimmed TLSA stdout. -/
def generateCertificates (w : CreateWorld) (domain : Str) :
    List Action × Except Str Str :=
  let a1 := Action.runCmd "bash".data ["certificates.sh".data]
    [("DOMAIN".data, domain)]
  if w.certs.code ≠ 0 then
    ([a1], .error ("Failed to generate certificates: ".data ++ w.certs.stderr))
  else
    let a2 := Action.runCmd "bash".data ["tlsa.sh".data] [("DOMAIN".data, domain)]
    if w.tlsa.code ≠ 0 then
      ([a1, a2], .error ("Failed to generate TLSA record: ".data ++ w.tlsa.stderr))
    else
      ([a1, a2], .ok (jsTrim w.tlsa.stdout))

/-- Embeds `createZoneFile` (src/main.ts lines 73-91): writes the zone file. -/
def createZoneFile (ecfg : EnvCfg) (w : CreateWorld) (domain tlsaRecord : Str) :
    List Action × Except Str Unit :=
  match w.writeZone with
  | .error e => ([], .error e)
  | .ok _ =>
    ([Action.writeFile (zonePath domain) (zoneContents ecfg domain tlsaRecord)],
      .ok ())

/-- Embeds `generateDnssecKey` (src/main.ts lines 93-104): runs
`dnssec-keygen` and returns the trimmed key-file base name. -/
def generateDnssecKey (w : CreateWorld) (domain : Str) :
    List Action × Except Str Str :=
  let a := Action.runCmd "dnssec-keygen".data
    ["-a".data, "ECDSAP256SHA256".data, "-K".data, "/etc/coredns/keys".data,
      domain] []
  if w.keygen.code ≠ 0 then
    ([a], .error ("Failed to generate DNSSEC key: ".data ++ w.keygen.stderr))
  else ([a], .ok (jsTrim w.keygen.stdout))

/-- Embeds `generateCorefile` (src/main.ts lines 106-119). -/
def generateCorefile (w : CreateWorld) (domain keyFile : Str) :
    List Action × Except Str Unit :=
  match w.writeCorefile with
  | .error e => ([], .error e)
  | .ok _ =>
    ([Action.writeFile (corefilePath domain) (corefileContents domain keyFile)],
      .ok ())

/-- Embeds `generateDsRecord` (src/main.ts lines 121-133): runs
`dnssec-dsfromkey` and applies `dsFromOutput` to its stdout. -/
def generateDsRecord (w : CreateWorld) (domain keyFile : Str) :
    List Action × Except Str Str :=
  let a := Action.runCmd "dnssec-dsfromkey".data
    ["-a".data, "SHA-256".data,
      "/etc/coredns/keys/".data ++ keyFile ++ ".key".data] []
  if w.dsfromkey.code ≠ 0 then
    ([a], .error ("Failed to generate DS record: ".data ++ w.dsfromkey.stderr))
  else ([a], .ok (dsFromOutput domain w.dsfromkey.stdout))

/-- Embeds `restartCoreDns` (src/main.ts lines 135-143). -/
def restartCoreDns (r : CmdResult) : List Action × Except Str Unit :=
  let a := Action.runCmd "systemctl".data ["restart".data, "coredns".data] []
  if r.code ≠ 0 then
    ([a], .error ("Failed to restart CoreDNS: ".data ++ r.stderr))
  else ([a], .ok ())

/-- Embeds `generateCaddyFile` (src/main.ts lines 145-165): writes the
fragment, validates it, and on a failed validation removes the just-written
fragment before throwing the validation error. -/
def generateCaddyFile (w : CreateWorld) (domain : Str) :
    List Action × Except Str Unit :=
  match w.writeCaddy with
  | .error e => ([], .error e)
  | .ok _ =>
    let wAct := Action.writeFile (caddyfilePath domain) (caddyfileContents domain)
    let vAct := Action.runCmd "caddy".data
      ["validate".data, "-c".data, caddyfilePath domain, "-a".data,
        "caddyfile".data] []
    if w.validate.code ≠ 0 then
      match w.removeCaddy with
      | .error e => ([wAct, vAct], .error e)
      | .ok _ =>
        ([wAct, vAct, Action.removeFile (caddyfilePath domain)],
          .error ("Failed to validate Caddyfile: ".data ++ w.validate.stderr))
    else ([wAct, vAct], .ok ())

/-- Embeds `reloadCaddy` (src/main.ts lines 167-175). -/
def reloadCaddy (r : CmdResult) : List Action × Except Str Unit :=
  let a := Action.runCmd "systemctl".data ["reload".data, "caddy".data] []
  if r.code ≠ 0 then
    ([a], .error ("Failed to reload Caddy: ".data ++ r.stderr))
  else ([a], .ok ())

/-- The `try` block of `createDomain` (src/main.ts lines 14-43): the step
sequence, aborting at the first raised error; on full success the success
message is written into the trigger file. -/
def createDomainTry (ecfg : EnvCfg) (w : CreateWorld) (path : Str) :
    List Action × Except Str Unit :=
  let domain := extractDomain path
  match generateCertificates w domain with
  | (t1, .error e) => (t1, .error e)
  | (t1, .ok tlsaRecord) =>
    match createZoneFile ecfg w domain tlsaRecord with
    | (t2, .error e) => (t1 ++ t2, .error e)
    | (t2, .ok _) =>
      match generateDnssecKey w domain with
      | (t3, .error e) => (t1 ++ t2 ++ t3, .error e)
      | (t3, .ok keyFile) =>
        match generateCorefile w domain keyFile with
        | (t4, .error e) => (t1 ++ t2 ++ t3 ++ t4, .error e)
        | (t4, .ok _) =>
          match generateDsRecord w domain keyFile with
          | (t5, .error e) => (t1 ++ t2 ++ t3 ++ t4 ++ t5, .error e)
          | (t5, .ok dsRecord) =>
            match generateCaddyFile w domain with
            | (t6, .error e) => (t1 ++ t2 ++ t3 ++ t4 ++ t5 ++ t6, .error e)
            | (t6, .ok _) =>
              match restartCoreDns w.restart with
              | (t7, .error e) =>
                (t1 ++ t2 ++ t3 ++ t4 ++ t5 ++ t6 ++ t7, .error e)
              | (t7, .ok _) =>
                match reloadCaddy w.reload with
                | (t8, .error e) =>
                  (t1 ++ t2 ++ t3 ++ t4 ++ t5 ++ t6 ++ t7 ++ t8, .error e)
                | (t8, .ok _) =>
                  match w.writeTriggerTry with
                  | .error e =>
                    (t1 ++ t2 ++ t3 ++ t4 ++ t5 ++ t6 ++ t7 ++ t8, .error e)
                  | .ok _ =>
                    (t1 ++ t2 ++ t3 ++ t4 ++ t5 ++ t6 ++ t7 ++ t8
                      ++ [Action.writeFile path
                            (successMessage ecfg domain dsRecord tlsaRecord)],
                      .ok ())

/-- Embeds `createDomain` (src/main.ts lines 10-51): the `try` block, plus the
`catch` that writes `Error: <message>` into the trigger file; a failure of
that status write itself escapes the run (second component `some e`). -/
def createDomain (ecfg : EnvCfg) (w : CreateWorld) (path : Str) :
    List Action × Option Str :=
  match createDomainTry ecfg w path with
  | (t, .ok _) => (t, none)
  | (t, .error e) =>
    match w.writeTriggerCatch with
    | .ok _ => (t ++ [Action.writeFile path (errTag ++ e)], none)
    | .error e2 => (t, some e2)

/-! ## Decommission pipeline (`removeDomain`, src/main.ts lines 177-259)

`Deno.remove` is modelled over an explicit set of existing files (`fs`,
duplicate-free list of paths) so that idempotence is expressible: removing a
present file succeeds and deletes it, removing an absent file raises
`NotFound`, and an oracle `inj` can additionally inject any other failure
(e.g. a permission error) for a given path. -/

/-- Outcome of one modelled `Deno.remove`. -/
inductive RmRes where
  | ok
  | notFound
  | err (msg : Str)

/-- Oracle and state for one `removeDomain` run. -/
structure RemoveWorld where
  fs : List Str
  inj : Str → Option Str
  restart : CmdResult
  reload : CmdResult
  writeCatch : Except Str Unit

/-- Models `Deno.remove p` on the file set `fs` with failure injection. -/
def tryRemove (inj : Str → Option Str) (fs : List Str) (p : Str) :
    List Str × RmRes :=
  match inj p with
  | some m => (fs, .err m)
  | none =>
    if p ∈ fs then (fs.filter (fun q => q != p), .ok) else (fs, .notFound)

/-- Message of a `Deno.errors.NotFound` raised by `Deno.remove` (modelled
text; its exact wording is irrelevant to every claim). -/
def notFoundMsg (p : Str) : Str :=
  "No such file or directory (os error 2), remove ".data ++ p

/-- Embeds `removeCertificates` (src/main.ts lines 199-210): one `try` around
BOTH removes; a `NotFound` from either is swallowed (so a missing `.crt`
skips the `.key` removal), any other error propagates. -/
def removeCertificates (inj : Str → Option Str) (fs : List Str) (d : Str) :
    List Str × List Action × Except Str Unit :=
  match tryRemove inj fs (crtPath d) with
  | (fs1, .err m) => (fs1, [], .error m)
  | (fs1, .notFound) => (fs1, [], .ok ())
  | (fs1, .ok) =>
    match tryRemove inj fs1 (keyPath d) with
    | (fs2, .err m) => (fs2, [Action.removeFile (crtPath d)], .error m)
    | (fs2, .notFound) => (fs2, [Action.removeFile (crtPath d)], .ok ())
    | (fs2, .ok) =>
      (fs2, [Action.removeFile (crtPath d), Action.removeFile (keyPath d)],
        .ok ())

/-- One `try { Deno.remove(p) } catch: swallow NotFound` block, shared shape of
`removeZoneFile`, `removeCorefile` and `removeCaddyfile`. -/
def removeTolerating (inj : Str → Option Str) (fs : List Str) (p : Str) :
    List Str × List Action × Except Str Unit :=
  match tryRemove inj fs p with
  | (fs1, .err m) => (fs1, [], .error m)
  | (fs1, .notFound) => (fs1, [], .ok ())
  | (fs1, .ok) => (fs1, [Action.removeFile p], .ok ())

/-- Embeds `removeZoneFile` (src/main.ts lines 212-221). -/
def removeZoneFile (inj : Str → Option Str) (fs : List Str) (d : Str) :
    List Str × List Action × Except Str Unit :=
  removeTolerating inj fs (zonePath d)

/-- Embeds `removeCorefile` (src/main.ts lines 230-239). -/
def removeCorefile (inj : Str → Option Str) (fs : List Str) (d : Str) :
    List Str × List Action × Except Str Unit :=
  removeTolerating inj fs (corefilePath d)

/-- Embeds `removeCaddyfile` (src/main.ts lines 241-250). -/
def removeCaddyfile (inj : Str → Option Str) (fs : List Str) (d : Str) :
    List Str × List Action × Except Str Unit :=
  removeTolerating inj fs (caddyfilePath d)

/-- The loop body of `removeFiles` (src/main.ts lines 252-259): removes each
glob match in order, with NO try/catch — any raised error (including a
`NotFound`) propagates. -/
def removeFilesGo (inj : Str → Option Str) :
    List Str → List Str → List Action →
      List Str × List Action × Except Str Unit
  | [], fs, acc => (fs, acc, .ok ())
  | p :: rest, fs, acc =>
    match tryRemove inj fs p with
    | (fs1, .err m) => (fs1, acc, .error m)
    | (fs1, .notFound) => (fs1, acc, .error (notFoundMsg p))
    | (fs1, .ok) => removeFilesGo inj rest fs1 (acc ++ [Action.removeFile p])

/-- Embeds `removeFiles` over `expandGlob(pat ++ "*")`: the glob matches are
the files whose path extends the literal pattern stem; every entry of the
modelled file set is a file, so the `isFile` test always passes. -/
def removeFiles (inj : Str → Option Str) (fs : List Str) (pat : Str) :
    List Str × List Action × Except Str Unit :=
  removeFilesGo inj (fs.filter (fun q => pat.isPrefixOf q)) fs []

/-- Embeds `removeDnssecKey` (src/main.ts lines 223-228): glob-removal of
`/etc/coredns/keys/K<domain>.+013+*`. -/
def removeDnssecKey (inj : Str → Option Str) (fs : List Str) (d : Str) :
    List Str × List Action × Except Str Unit :=
  removeFiles inj fs (keysGlobPre d)

/-- Result of one `removeDomain` run: final file set, recorded effects, and
the escaped error if the `catch` status write itself failed. -/
structure RemoveResult where
  fs : List Str
  trace : List Action
  escaped : Option Str

/-- The `try` block of `removeDomain` (src/main.ts lines 181-192): the five
removal steps, both service calls, then deletion of the trigger file itself
(this last `Deno.remove` is NOT inside an inner try: its `NotFound` also
propagates). -/
def removeDomainTry (w : RemoveWorld) (path : Str) :
    List Str × List Action × Except Str Unit :=
  let domain := extractDomain path
  match removeCertificates w.inj w.fs domain with
  | (fs1, t1, .error e) => (fs1, t1, .error e)
  | (fs1, t1, .ok _) =>
    match removeZoneFile w.inj fs1 domain with
    | (fs2, t2, .error e) => (fs2, t1 ++ t2, .error e)
    | (fs2, t2, .ok _) =>
      match removeDnssecKey w.inj fs2 domain with
      | (fs3, t3, .error e) => (fs3, t1 ++ t2 ++ t3, .error e)
      | (fs3, t3, .ok _) =>
        match removeCorefile w.inj fs3 domain with
        | (fs4, t4, .error e) => (fs4, t1 ++ t2 ++ t3 ++ t4, .error e)
        | (fs4, t4, .ok _) =>
          match removeCaddyfile w.inj fs4 domain with
          | (fs5, t5, .error e) => (fs5, t1 ++ t2 ++ t3 ++ t4 ++ t5, .error e)
          | (fs5, t5, .ok _) =>
            match restartCoreDns w.restart with
            | (t6, .error e) =>
              (fs5, t1 ++ t2 ++ t3 ++ t4 ++ t5 ++ t6, .error e)
            | (t6, .ok _) =>
              match reloadCaddy w.reload with
              | (t7, .error e) =>
                (fs5, t1 ++ t2 ++ t3 ++ t4 ++ t5 ++ t6 ++ t7, .error e)
              | (t7, .ok _) =>
                match tryRemove w.inj fs5 path with
                | (fs6, .ok) =>
                  (fs6,
                    t1 ++ t2 ++ t3 ++ t4 ++ t5 ++ t6 ++ t7
                      ++ [Action.removeFile path], .ok ())
                | (fs6, .notFound) =>
                  (fs6, t1 ++ t2 ++ t3 ++ t4 ++ t5 ++ t6 ++ t7,
                    .error (notFoundMsg path))
                | (fs6, .err m) =>
                  (fs6, t1 ++ t2 ++ t3 ++ t4 ++ t5 ++ t6 ++ t7, .error m)

/-- Embeds `removeDomain` (src/main.ts lines 177-197): the `try` block plus
the `catch` writing `Error: <message>` back into the trigger path (thereby
re-creating the trigger file); a failure of that write escapes the run. -/
def removeDomain (w : RemoveWorld) (path : Str) : RemoveResult :=
  match removeDomainTry w path with
  | (fs1, t, .ok _) => ⟨fs1, t, none⟩
  | (fs1, t, .error e) =>
    match w.writeCatch with
    | .ok _ => ⟨fs1, t ++ [Action.writeFile path (errTag ++ e)], none⟩
    | .error e2 => ⟨fs1, t, some e2⟩

/-! ## Event loop (src/main.ts lines 262-284) -/

/-- Kind of a `Deno.watchFs` event; only `create` is acted on. -/
inductive FsEventKind where
  | create
  | modify
  | remove
  | access
  | other
deriving DecidableEq

/-- One path of one filesystem event, bundled with the oracle outcomes the
loop would observe for it: the `Deno.stat` result (owner uid, or a raised
error) and the worlds of the pipeline run it may dispatch. -/
structure PathItem where
  path : Str
  statUid : Except Str Nat
  cw : CreateWorld
  rw : RemoveWorld

/-- One `Deno.watchFs` event. -/
structure FsEvent where
  kind : FsEventKind
  paths : List PathItem

/-- The per-path body of the event loop (src/main.ts lines 264-282): classify,
stat, silently skip uid-0 owners, dispatch a pipeline; `Except.error` means an
uncaught error escaped and the loop (the whole process) dies. -/
def processPath (ecfg : EnvCfg) (it : PathItem) : Except Str (List Action) :=
  if testDomainRegex it.path then
    match it.statUid with
    | .error e => .error e
    | .ok uid =>
      if uid = 0 then .ok []
      else
        match createDomain ecfg it.cw it.path with
        | (t, none) => .ok t
        | (_, some e) => .error e
  else if testRemoveDomainRegex it.path then
    match it.statUid with
    | .error e => .error e
    | .ok uid =>
      if uid = 0 then .ok []
      else
        let r := removeDomain it.rw it.path
        match r.escaped with
        | none => .ok r.trace
        | some e => .error e
  else .ok []

/-- The inner `for (const path of event.paths)` loop. -/
def processPaths (ecfg : EnvCfg) : List PathItem → Except Str (List Action)
  | [] => .ok []
  | it :: rest =>
    match processPath ecfg it with
    | .error e => .error e
    | .ok t =>
      match processPaths ecfg rest with
      | .error e => .error e
      | .ok t2 => .ok (t ++ t2)

/-- One iteration of `for await (const event of watcher)`. -/
def processEvent (ecfg : EnvCfg) (ev : FsEvent) : Except Str (List Action) :=
  if ev.kind = FsEventKind.create then processPaths ecfg ev.paths else .ok []

/-- The driving event loop over a finite event prefix. -/
def processEvents (ecfg : EnvCfg) : List FsEvent → Except Str (List Action)
  | [] => .ok []
  | ev :: rest =>
    match processEvent ecfg ev with
    | .error e => .error e
    | .ok t =>
      match processEvents ecfg rest with
      | .error e => .error e
      | .ok t2 => .ok (t ++ t2)

/-! ## Trace observations -/

/-- Net content a trace leaves at path `p`: the last write wins, a removal
clears it; `none` means the run left nothing of its own at `p`. -/
def finalContents (tr : List Action) (p : Str) : Option Str :=
  tr.foldl
    (fun acc a =>
      match a with
      | Action.writeFile q c => if q = p then some c else acc
      | Action.removeFile q => if q = p then none else acc
      | _ => acc)
    none

/-- Does this action write or delete the file at `p`? -/
def isTrigOp (p : Str) : Action → Bool
  | Action.writeFile q _ => q == p
  | Action.removeFile q => q == p
  | _ => false

/-- Is this action an external command invocation? -/
def isRunCmd : Action → Bool
  | Action.runCmd _ _ _ => true
  | _ => false

/-- The external command invocations of a trace, in order. -/
def cmdsOf (tr : List Action) : List Action := tr.filter isRunCmd

/-- The seven external calls of a provisioning run for domain `d`, in source
order (the `dnssec-dsfromkey` argument embeds the trimmed `dnssec-keygen`
stdout). -/
def createCalls (w : CreateWorld) (d : Str) : List Action :=
  [Action.runCmd "bash".data ["certificates.sh".data] [("DOMAIN".data, d)],
   Action.runCmd "bash".data ["tlsa.sh".data] [("DOMAIN".data, d)],
   Action.runCmd "dnssec-keygen".data
     ["-a".data, "ECDSAP256SHA256".data, "-K".data, "/etc/coredns/keys".data,
       d] [],
   Action.runCmd "dnssec-dsfromkey".data
     ["-a".data, "SHA-256".data,
       "/etc/coredns/keys/".data ++ jsTrim w.keygen.stdout ++ ".key".data] [],
   Action.runCmd "caddy".data
     ["validate".data, "-c".data, caddyfilePath d, "-a".data,
       "caddyfile".data] [],
   Action.runCmd "systemctl".data ["restart".data, "coredns".data] [],
   Action.runCmd "systemctl".data ["reload".data, "caddy".data] []]

/-- Exit codes of the seven external calls, in source order. -/
def createCodes (w : CreateWorld) : List Nat :=
  [w.certs.code, w.tlsa.code, w.keygen.code, w.dsfromkey.code, w.validate.code,
   w.restart.code, w.reload.code]

/-- The error message `createDomain` raises when call `k` (0-based, source
order) is the one that fails. -/
def createErrMsg (w : CreateWorld) : Nat → Str
  | 0 => "Failed to generate certificates: ".data ++ w.certs.stderr
  | 1 => "Failed to generate TLSA record: ".data ++ w.tlsa.stderr
  | 2 => "Failed to generate DNSSEC key: ".data ++ w.keygen.stderr
  | 3 => "Failed to generate DS record: ".data ++ w.dsfromkey.stderr
  | 4 => "Failed to validate Caddyfile: ".data ++ w.validate.stderr
  | 5 => "Failed to restart CoreDNS: ".data ++ w.restart.stderr
  | _ => "Failed to reload Caddy: ".data ++ w.reload.stderr

/-- The `systemctl restart coredns` invocation (src/main.ts line 137). -/
def aRestart : Action :=
  Action.runCmd "systemctl".data ["restart".data, "coredns".data] []

/-- The `systemctl reload caddy` invocation (src/main.ts line 169). -/
def aReload : Action :=
  Action.runCmd "systemctl".data ["reload".data, "caddy".data] []

/-! ## Concrete sample instances (used by witnesses and counterexamples) -/

/-- A sample environment file. -/
def ecfg0 : EnvCfg := ⟨"ns1.example".data, "192.0.2.7".data, "2001:db8::7".data⟩

/-- A successful command result. -/
def cmdOk : CmdResult := ⟨0, "ok-out".data, []⟩

/-- A failing command result. -/
def cmdFail : CmdResult := ⟨1, [], "boom".data⟩

/-- A `CreateWorld` in which everything succeeds. -/
def cwOk : CreateWorld :=
  ⟨cmdOk, ⟨0, "3 1 1 AB12".data, []⟩, ⟨0, "Kalice.+013+12345\n".data, []⟩,
    ⟨0, "alice. IN DS 12345 13 2 CD34\n".data, []⟩, cmdOk, cmdOk, cmdOk,
    .ok (), .ok (), .ok (), .ok (), .ok (), .ok ()⟩

/-- A `CreateWorld` whose `dnssec-keygen` call fails (call index 2), with
every filesystem operation succeeding. -/
def cwKeygenFail : CreateWorld :=
  ⟨cmdOk, ⟨0, "3 1 1 AB12".data, []⟩, ⟨1, [], "keygen-err".data⟩,
    cmdOk, cmdOk, cmdOk, cmdOk,
    .ok (), .ok (), .ok (), .ok (), .ok (), .ok ()⟩

/-- A `CreateWorld` whose `caddy validate` call fails (call index 4). -/
def cwValidateFail : CreateWorld :=
  ⟨cmdOk, ⟨0, "3 1 1 AB12".data, []⟩, ⟨0, "Kalice.+013+12345\n".data, []⟩,
    ⟨0, "alice. IN DS 12345 13 2 CD34\n".data, []⟩, ⟨1, [], "bad-config".data⟩,
    cmdOk, cmdOk, .ok (), .ok (), .ok (), .ok (), .ok (), .ok ()⟩

/-- A `CreateWorld` whose first step fails AND whose catch status write also
fails: the run's error escapes and kills the event loop. -/
def cwEscape : CreateWorld :=
  ⟨cmdFail, cmdOk, cmdOk, cmdOk, cmdOk, cmdOk, cmdOk,
    .ok (), .ok (), .ok (), .ok (), .ok (), .error "disk full".data⟩

/-- No injected removal failures. -/
def injNone : Str → Option Str := fun _ => none

/-- A `RemoveWorld` over an empty filesystem in which everything succeeds. -/
def rwOk : RemoveWorld := ⟨[], injNone, cmdOk, cmdOk, .ok ()⟩

/-- A sample create trigger path. -/
def pCreate : Str := "/home/alice/.domain".data

/-- A sample remove trigger path. -/
def pRemove : Str := "/home/alice/.remove-domain".data

/-- A sample filesystem holding every artifact of domain `alice` plus the
remove trigger. -/
def fsAlice : List Str :=
  [crtPath "alice".data, keyPath "alice".data, zonePath "alice".data,
   "/etc/coredns/keys/Kalice.+013+12345.key".data,
   "/etc/coredns/keys/Kalice.+013+12345.private".data,
   corefilePath "alice".data, caddyfilePath "alice".data, pRemove]

/-- An event-loop path item whose provisioning run escapes: the first step
fails and the catch status write fails too. -/
def itemEscape : PathItem := ⟨pCreate, .ok 1000, cwEscape, rwOk⟩

/-- A benign event-loop path item (everything succeeds). -/
def itemOk : PathItem := ⟨pCreate, .ok 1000, cwOk, rwOk⟩

/-- A create event carrying the escaping item. -/
def evEscape : FsEvent := ⟨.create, [itemEscape]⟩

/-- A create event carrying the benign item. -/
def evOk : FsEvent := ⟨.create, [itemOk]⟩

/-- An injection that fails only the removal of the sample remove trigger. -/
def injTrig : Str → Option Str :=
  fun q => if q = pRemove then some "permission denied".data else none

/-- A `RemoveWorld` over `fsAlice` whose only failing operation is the final
deletion of the trigger file itself. -/
def rwTrigFail : RemoveWorld := ⟨fsAlice, injTrig, cmdOk, cmdOk, .ok ()⟩

/-! ## Helper lemmas -/

theorem isPrefixOf_exists {l p : Str} (h : l.isPrefixOf p = true) :
    ∃ t, p = l ++ t := by
  induction l generalizing p with
  | nil => exact ⟨p, rfl⟩
  | cons c cs ih =>
    cases p with
    | nil => simp [List.isPrefixOf] at h
    | cons b bs =>
      simp only [List.isPrefixOf, Bool.and_eq_true, beq_iff_eq] at h
      obtain ⟨h1, h2⟩ := h
      obtain ⟨t, ht⟩ := ih h2
      subst h1
      exact ⟨t, by rw [ht]; rfl⟩

theorem splitAtFirstSlash_eq {t u r : Str}
    (h : splitAtFirstSlash t = some (u, r)) : t = u ++ '/' :: r ∧ '/' ∉ u := by
  induction t generalizing u r with
  | nil => simp [splitAtFirstSlash] at h
  | cons c cs ih =>
    by_cases hc : c = '/'
    · subst hc
      simp [splitAtFirstSlash] at h
      obtain ⟨hu, hr⟩ := h
      subst hu
      subst hr
      simp
    · simp only [splitAtFirstSlash, if_neg hc] at h
      cases hs : splitAtFirstSlash cs with
      | none => rw [hs] at h; simp at h
      | some q =>
        rw [hs] at h
        simp only [Option.map_some', Option.some.injEq, Prod.mk.injEq] at h
        obtain ⟨hu, hr⟩ := h
        obtain ⟨ht, hnot⟩ := @ih q.1 q.2 (by rw [hs])
        subst hu; subst hr
        constructor
        · rw [List.cons_append, ← ht]
        · intro hm
          rcases List.mem_cons.mp hm with h1 | h1
          · exact hc h1.symm
          · exact hnot h1

theorem jsSplit_sep_cons (sep : Char) (l : Str) :
    jsSplit sep (sep :: l) = [] :: jsSplit sep l := by
  simp [jsSplit]

theorem jsSplit_seg {sep : Char} {u : Str} (r : Str) (hu : sep ∉ u) :
    jsSplit sep (u ++ sep :: r) = u :: jsSplit sep r := by
  induction u with
  | nil => simp [jsSplit]
  | cons c cs ih =>
    have hc : ¬(c = sep) := fun he => hu (by rw [he]; exact List.mem_cons_self _ _)
    have hcs : sep ∉ cs := fun hm => hu (List.mem_cons_of_mem _ hm)
    rw [List.cons_append]
    simp only [jsSplit, if_neg hc, ih hcs]

theorem extractDomain_decomp {u : Str} (r : Str) (hu : '/' ∉ u) :
    extractDomain (homeSlash ++ u ++ '/' :: r) = u := by
  have h1 : homeSlash ++ u ++ '/' :: r
      = '/' :: ("home".data ++ '/' :: (u ++ '/' :: r)) := by
    simp [homeSlash]
  rw [extractDomain, h1, jsSplit_sep_cons, jsSplit_seg _ (by decide),
    jsSplit_seg r hu]
  rfl

theorem regex_decomp {p tail : Str}
    (h : (if homeSlash.isPrefixOf p then
            match splitAtFirstSlash (p.drop 6) with
            | none => false
            | some q => dotThen tail q.2
          else false) = true) :
    ∃ u r, p = homeSlash ++ u ++ '/' :: r ∧ '/' ∉ u ∧ extractDomain p = u := by
  by_cases hp : homeSlash.isPrefixOf p
  · obtain ⟨t, ht⟩ := isPrefixOf_exists hp
    subst ht
    cases hs : splitAtFirstSlash ((homeSlash ++ t).drop 6) with
    | none => rw [if_pos hp, hs] at h; simp at h
    | some q =>
      have hdrop : (homeSlash ++ t).drop 6 = t := rfl
      rw [hdrop] at hs
      obtain ⟨he, hnot⟩ := @splitAtFirstSlash_eq _ q.1 q.2 (by rw [hs])
      refine ⟨q.1, q.2, ?_, hnot, ?_⟩
      · rw [he, List.append_assoc]
      · rw [he, ← List.append_assoc]
        exact extractDomain_decomp q.2 hnot
  · rw [if_neg hp] at h; simp at h

theorem domain_decomp {p : Str} (h : testDomainRegex p = true) :
    ∃ u r, p = homeSlash ++ u ++ '/' :: r ∧ '/' ∉ u ∧ extractDomain p = u :=
  @regex_decomp p "domain".data h

theorem removeRegex_decomp {p : Str} (h : testRemoveDomainRegex p = true) :
    ∃ u r, p = homeSlash ++ u ++ '/' :: r ∧ '/' ∉ u ∧ extractDomain p = u :=
  @regex_decomp p "remove-domain".data h

theorem remove_excludes_domain {p : Str} (h : testRemoveDomainRegex p = true) :
    testDomainRegex p = false := by
  unfold testDomainRegex
  unfold testRemoveDomainRegex at h
  by_cases hp : homeSlash.isPrefixOf p
  · rw [if_pos hp] at h ⊢
    cases hs : splitAtFirstSlash (p.drop 6) with
    | none => rfl
    | some q =>
      obtain ⟨q1, q2⟩ := q
      rw [hs] at h
      have h2 : dotThen "remove-domain".data q2 = true := h
      show dotThen "domain".data q2 = false
      cases q2 with
      | nil => exact absurd h2 (by decide)
      | cons c rest =>
        simp only [dotThen, Bool.and_eq_true, beq_iff_eq] at h2
        obtain ⟨_, h3⟩ := h2
        subst h3
        show (isDotChar c && false) = false
        exact Bool.and_false _
  · rw [if_neg hp] at h; simp at h

theorem ne_of_take_ne {l₁ l₂ : Str} (n : Nat)
    (h : l₁.take n ≠ l₂.take n) : l₁ ≠ l₂ :=
  fun he => h (by rw [he])

theorem slashH_ne_slashE : ("/h".data : Str) ≠ "/e".data := by decide

theorem etcZ_ne_etcC : ("/etc/coredns/z".data : Str) ≠ "/etc/coredns/c".data := by
  decide

theorem etcCo_ne_etcCa : ("/etc/co".data : Str) ≠ "/etc/ca".data := by decide

theorem home_ne_crtPath (s d : Str) : homeSlash ++ s ≠ crtPath d :=
  ne_of_take_ne 2 slashH_ne_slashE

theorem home_ne_keyPath (s d : Str) : homeSlash ++ s ≠ keyPath d :=
  ne_of_take_ne 2 slashH_ne_slashE

theorem home_ne_zonePath (s d : Str) : homeSlash ++ s ≠ zonePath d :=
  ne_of_take_ne 2 slashH_ne_slashE

theorem home_ne_corefilePath (s d : Str) : homeSlash ++ s ≠ corefilePath d :=
  ne_of_take_ne 2 slashH_ne_slashE

theorem home_ne_caddyfilePath (s d : Str) : homeSlash ++ s ≠ caddyfilePath d :=
  ne_of_take_ne 2 slashH_ne_slashE

theorem zone_ne_corefilePath (d e : Str) : zonePath d ≠ corefilePath e :=
  ne_of_take_ne 14 etcZ_ne_etcC

theorem zone_ne_caddyfilePath (d e : Str) : zonePath d ≠ caddyfilePath e :=
  ne_of_take_ne 7 etcCo_ne_etcCa

theorem core_ne_caddyfilePath (d e : Str) : corefilePath d ≠ caddyfilePath e :=
  ne_of_take_ne 7 etcCo_ne_etcCa

theorem keysGlob_not_pre (d s : Str) :
    (keysGlobPre d).isPrefixOf (homeSlash ++ s) = false := rfl

theorem sslC_ne_sslP : ("/etc/ssl/c".data : Str) ≠ "/etc/ssl/p".data := by decide

theorem etcS_ne_etcC : ("/etc/s".data : Str) ≠ "/etc/c".data := by decide

theorem crt_ne_keyPath (d e : Str) : crtPath d ≠ keyPath e :=
  ne_of_take_ne 10 sslC_ne_sslP

theorem crt_ne_zonePath (d e : Str) : crtPath d ≠ zonePath e :=
  ne_of_take_ne 6 etcS_ne_etcC

theorem crt_ne_corefilePath (d e : Str) : crtPath d ≠ corefilePath e :=
  ne_of_take_ne 6 etcS_ne_etcC

theorem crt_ne_caddyfilePath (d e : Str) : crtPath d ≠ caddyfilePath e :=
  ne_of_take_ne 6 etcS_ne_etcC

theorem key_ne_zonePath (d e : Str) : keyPath d ≠ zonePath e :=
  ne_of_take_ne 6 etcS_ne_etcC

theorem key_ne_corefilePath (d e : Str) : keyPath d ≠ corefilePath e :=
  ne_of_take_ne 6 etcS_ne_etcC

theorem key_ne_caddyfilePath (d e : Str) : keyPath d ≠ caddyfilePath e :=
  ne_of_take_ne 6 etcS_ne_etcC

theorem keysGlob_not_pre_crt (d e : Str) :
    (keysGlobPre d).isPrefixOf (crtPath e) = false := rfl

theorem keysGlob_not_pre_key (d e : Str) :
    (keysGlobPre d).isPrefixOf (keyPath e) = false := rfl

theorem keysGlob_not_pre_zone (d e : Str) :
    (keysGlobPre d).isPrefixOf (zonePath e) = false := rfl

theorem keysGlob_not_pre_core (d e : Str) :
    (keysGlobPre d).isPrefixOf (corefilePath e) = false := rfl

theorem keysGlob_not_pre_caddy (d e : Str) :
    (keysGlobPre d).isPrefixOf (caddyfilePath e) = false := rfl

theorem filter_bne_of_not_mem {fs : List Str} {p : Str} (h : p ∉ fs) :
    fs.filter (fun q => q != p) = fs :=
  List.filter_eq_self.mpr fun _a ha => bne_iff_ne.mpr fun he => h (he ▸ ha)

theorem tryRemove_inj {inj : Str → Option Str} {fs : List Str} {p m : Str}
    (h : inj p = some m) : tryRemove inj fs p = (fs, .err m) := by
  simp [tryRemove, h]

theorem tryRemove_mem {inj : Str → Option Str} {fs : List Str} {p : Str}
    (hi : inj p = none) (h : p ∈ fs) :
    tryRemove inj fs p = (fs.filter (fun q => q != p), .ok) := by
  simp [tryRemove, hi, h]

theorem tryRemove_not_mem {inj : Str → Option Str} {fs : List Str} {p : Str}
    (hi : inj p = none) (h : p ∉ fs) :
    tryRemove inj fs p = (fs, .notFound) := by
  simp [tryRemove, hi, h]

theorem removeTolerating_absent {inj : Str → Option Str} {fs : List Str}
    {p : Str} (hi : inj p = none) (h : p ∉ fs) :
    removeTolerating inj fs p = (fs, [], .ok ()) := by
  simp [removeTolerating, tryRemove_not_mem hi h]

theorem removeTolerating_present {inj : Str → Option Str} {fs : List Str}
    {p : Str} (hi : inj p = none) (h : p ∈ fs) :
    removeTolerating inj fs p
      = (fs.filter (fun q => q != p), [Action.removeFile p], .ok ()) := by
  simp [removeTolerating, tryRemove_mem hi h]

theorem removeTolerating_err {inj : Str → Option Str} {fs : List Str}
    {p m : Str} (hi : inj p = some m) :
    removeTolerating inj fs p = (fs, [], .error m) := by
  simp [removeTolerating, tryRemove_inj hi]

theorem removeTolerating_ok (inj : Str → Option Str) (fs : List Str) (p : Str)
    (hi : inj p = none) :
    ∃ tr, removeTolerating inj fs p
        = (fs.filter (fun q => q != p), tr, .ok ())
      ∧ (∀ a ∈ tr, a = Action.removeFile p)
      ∧ (p ∈ fs → Action.removeFile p ∈ tr) := by
  by_cases h : p ∈ fs
  · exact ⟨[Action.removeFile p], removeTolerating_present hi h, by simp,
      fun _ => by simp⟩
  · refine ⟨[], ?_, by simp, fun hmem => absurd hmem h⟩
    rw [removeTolerating_absent hi h, filter_bne_of_not_mem h]

theorem removeCertificates_absent {inj : Str → Option Str} {fs : List Str}
    {d : Str} (hi : inj (crtPath d) = none) (h : crtPath d ∉ fs) :
    removeCertificates inj fs d = (fs, [], .ok ()) := by
  simp [removeCertificates, tryRemove_not_mem hi h]

theorem removeCertificates_err {inj : Str → Option Str} {fs : List Str}
    {d m : Str} (hi : inj (crtPath d) = some m) :
    removeCertificates inj fs d = (fs, [], .error m) := by
  simp [removeCertificates, tryRemove_inj hi]

theorem removeCertificates_ok (inj : Str → Option Str) (fs : List Str) (d : Str)
    (hic : inj (crtPath d) = none) (hik : inj (keyPath d) = none) :
    ∃ fs' tr, removeCertificates inj fs d = (fs', tr, .ok ())
      ∧ List.Sublist fs' fs
      ∧ crtPath d ∉ fs'
      ∧ (∀ q ∈ fs, q ≠ crtPath d → q ≠ keyPath d → q ∈ fs')
      ∧ (∀ a ∈ tr, a = Action.removeFile (crtPath d)
          ∨ a = Action.removeFile (keyPath d))
      ∧ (crtPath d ∈ fs → Action.removeFile (crtPath d) ∈ tr)
      ∧ (crtPath d ∈ fs → keyPath d ∈ fs
          → Action.removeFile (keyPath d) ∈ tr) := by
  by_cases hc : crtPath d ∈ fs
  · have hck : crtPath d ≠ keyPath d := crt_ne_keyPath d d
    by_cases hk : keyPath d ∈ fs
    · have hk1 : keyPath d ∈ fs.filter (fun q => q != crtPath d) :=
        List.mem_filter.mpr ⟨hk, bne_iff_ne.mpr (Ne.symm hck)⟩
      refine ⟨(fs.filter (fun q => q != crtPath d)).filter
          (fun q => q != keyPath d),
        [Action.removeFile (crtPath d), Action.removeFile (keyPath d)],
        ?_, ?_, ?_, ?_, ?_, ?_, ?_⟩
      · simp [removeCertificates, tryRemove_mem hic hc, tryRemove_mem hik hk1]
      · exact (List.filter_sublist _).trans (List.filter_sublist _)
      · intro hmem
        have h1 := (List.mem_filter.mp (List.mem_filter.mp hmem).1).2
        simp at h1
      · intro q hq hq1 hq2
        exact List.mem_filter.mpr
          ⟨List.mem_filter.mpr ⟨hq, bne_iff_ne.mpr hq1⟩, bne_iff_ne.mpr hq2⟩
      · intro a ha
        simp only [List.mem_cons, List.not_mem_nil, or_false] at ha
        rcases ha with ha | ha
        · exact Or.inl ha
        · exact Or.inr ha
      · intro _; exact List.mem_cons_self _ _
      · intro _ _; simp
    · refine ⟨fs.filter (fun q => q != crtPath d),
        [Action.removeFile (crtPath d)], ?_, List.filter_sublist _, ?_, ?_,
        ?_, fun _ => List.mem_cons_self _ _, fun _ h2 => absurd h2 hk⟩
      · have hknot : keyPath d ∉ fs.filter (fun q => q != crtPath d) :=
          fun hmem => hk (List.mem_filter.mp hmem).1
        simp [removeCertificates, tryRemove_mem hic hc,
          tryRemove_not_mem hik hknot]
      · intro hmem
        have h1 := (List.mem_filter.mp hmem).2
        simp at h1
      · intro q hq hq1 _
        exact List.mem_filter.mpr ⟨hq, bne_iff_ne.mpr hq1⟩
      · intro a ha
        simp at ha
        exact Or.inl ha
  · exact ⟨fs, [], removeCertificates_absent hic hc, List.Sublist.refl _, hc,
      fun q hq _ _ => hq, by simp, fun h1 => absurd h1 hc,
      fun h1 _ => absurd h1 hc⟩

theorem removeFilesGo_ok (inj : Str → Option Str) :
    ∀ (ps fs : List Str) (acc : List Action),
      (∀ p ∈ ps, p ∈ fs) → ps.Nodup → (∀ p ∈ ps, inj p = none) →
      ∃ fs', removeFilesGo inj ps fs acc
          = (fs', acc ++ ps.map Action.removeFile, .ok ())
        ∧ List.Sublist fs' fs ∧ (∀ q, q ∈ fs' ↔ (q ∈ fs ∧ q ∉ ps))
  | [], fs, acc, _, _, _ =>
    ⟨fs, by simp [removeFilesGo], List.Sublist.refl _, by simp⟩
  | p :: rest, fs, acc, hmem, hnd, hinj => by
    have hp : p ∈ fs := hmem p (List.mem_cons_self _ _)
    have hip : inj p = none := hinj p (List.mem_cons_self _ _)
    have hnd' := List.nodup_cons.mp hnd
    have hmem' : ∀ q ∈ rest, q ∈ fs.filter (fun x => x != p) := fun q hq =>
      List.mem_filter.mpr ⟨hmem q (List.mem_cons_of_mem _ hq),
        bne_iff_ne.mpr fun he => hnd'.1 (he ▸ hq)⟩
    obtain ⟨fs', heq, hsub, hiff⟩ := removeFilesGo_ok inj rest
      (fs.filter (fun x => x != p)) (acc ++ [Action.removeFile p]) hmem'
      hnd'.2 (fun q hq => hinj q (List.mem_cons_of_mem _ hq))
    refine ⟨fs', ?_, hsub.trans (List.filter_sublist _), ?_⟩
    · show (match tryRemove inj fs p with
        | (fs1, RmRes.err m) => (fs1, acc, Except.error m)
        | (fs1, RmRes.notFound) => (fs1, acc, Except.error (notFoundMsg p))
        | (fs1, RmRes.ok) =>
          removeFilesGo inj rest fs1 (acc ++ [Action.removeFile p]))
        = (fs', acc ++ (p :: rest).map Action.removeFile, Except.ok ())
      rw [tryRemove_mem hip hp]
      simp only [heq, List.map_cons, List.append_assoc, List.singleton_append]
    · intro q
      rw [hiff q, List.mem_filter]
      constructor
      · rintro ⟨⟨hqf, hqp⟩, hqr⟩
        refine ⟨hqf, fun hqm => ?_⟩
        rcases List.mem_cons.mp hqm with he | he
        · rw [he] at hqp; simp at hqp
        · exact hqr he
      · rintro ⟨hqf, hqnr⟩
        exact ⟨⟨hqf, bne_iff_ne.mpr fun he =>
            hqnr (he ▸ List.mem_cons_self _ _)⟩,
          fun hr => hqnr (List.mem_cons_of_mem _ hr)⟩

theorem removeDnssecKey_ok (inj : Str → Option Str) (fs : List Str) (d : Str)
    (hnd : fs.Nodup)
    (hinj : ∀ q ∈ fs, (keysGlobPre d).isPrefixOf q = true → inj q = none) :
    ∃ fs', removeDnssecKey inj fs d
        = (fs', (fs.filter (fun q => (keysGlobPre d).isPrefixOf q)).map
            Action.removeFile, .ok ())
      ∧ List.Sublist fs' fs
      ∧ (∀ q, q ∈ fs' ↔ (q ∈ fs ∧ (keysGlobPre d).isPrefixOf q = false)) := by
  obtain ⟨fs', heq, hsub, hiff⟩ := removeFilesGo_ok inj
    (fs.filter (fun q => (keysGlobPre d).isPrefixOf q)) fs []
    (fun p hp => (List.mem_filter.mp hp).1) (hnd.filter _)
    (fun p hp => hinj p (List.mem_filter.mp hp).1 (List.mem_filter.mp hp).2)
  refine ⟨fs', by simpa [removeDnssecKey, removeFiles] using heq, hsub, ?_⟩
  intro q
  rw [hiff q]
  constructor
  · rintro ⟨hqf, hnm⟩
    refine ⟨hqf, ?_⟩
    cases hb : (keysGlobPre d).isPrefixOf q with
    | false => rfl
    | true => exact absurd (List.mem_filter.mpr ⟨hqf, hb⟩) hnm
  · rintro ⟨hqf, hfalse⟩
    refine ⟨hqf, fun hm => ?_⟩
    rw [(List.mem_filter.mp hm).2] at hfalse
    exact Bool.true_eq_false.mp hfalse

theorem removeDnssecKey_empty (inj : Str → Option Str) (fs : List Str) (d : Str)
    (h : ∀ q ∈ fs, (keysGlobPre d).isPrefixOf q = false) :
    removeDnssecKey inj fs d = (fs, [], .ok ()) := by
  have hfil : fs.filter (fun q => (keysGlobPre d).isPrefixOf q) = [] :=
    List.filter_eq_nil_iff.mpr fun a ha => by rw [h a ha]; exact Bool.false_ne_true
  simp [removeDnssecKey, removeFiles, hfil, removeFilesGo]

theorem restartCoreDns_ok {r : CmdResult} (h : r.code = 0) :
    restartCoreDns r
      = ([Action.runCmd "systemctl".data ["restart".data, "coredns".data] []],
        .ok ()) := by
  simp [restartCoreDns, h]

theorem reloadCaddy_ok {r : CmdResult} (h : r.code = 0) :
    reloadCaddy r
      = ([Action.runCmd "systemctl".data ["reload".data, "caddy".data] []],
        .ok ()) := by
  simp [reloadCaddy, h]

theorem removeDomainTry_steps (w : RemoveWorld) (path : Str)
    (hres : w.restart.code = 0) (hrel : w.reload.code = 0)
    (hnd : w.fs.Nodup)
    (hinj : ∀ q, q ≠ path → w.inj q = none)
    (hne1 : path ≠ crtPath (extractDomain path))
    (hne2 : path ≠ keyPath (extractDomain path))
    (hne3 : path ≠ zonePath (extractDomain path))
    (hne4 : path ≠ corefilePath (extractDomain path))
    (hne5 : path ≠ caddyfilePath (extractDomain path))
    (hne6 : (keysGlobPre (extractDomain path)).isPrefixOf path = false) :
    ∃ fs5 tr5,
      removeDomainTry w path
        = (match tryRemove w.inj fs5 path with
           | (fs6, RmRes.ok) =>
             (fs6, tr5 ++ [Action.removeFile path], Except.ok ())
           | (fs6, RmRes.notFound) =>
             (fs6, tr5, Except.error (notFoundMsg path))
           | (fs6, RmRes.err m) => (fs6, tr5, Except.error m))
      ∧ List.Sublist fs5 w.fs
      ∧ crtPath (extractDomain path) ∉ fs5
      ∧ zonePath (extractDomain path) ∉ fs5
      ∧ corefilePath (extractDomain path) ∉ fs5
      ∧ caddyfilePath (extractDomain path) ∉ fs5
      ∧ (∀ q ∈ fs5, (keysGlobPre (extractDomain path)).isPrefixOf q = false)
      ∧ (∀ q ∈ w.fs, q ≠ crtPath (extractDomain path)
          → q ≠ keyPath (extractDomain path)
          → q ≠ zonePath (extractDomain path)
          → q ≠ corefilePath (extractDomain path)
          → q ≠ caddyfilePath (extractDomain path)
          → (keysGlobPre (extractDomain path)).isPrefixOf q = false → q ∈ fs5)
      ∧ (∀ a ∈ tr5, (∃ q, q ≠ path ∧ a = Action.removeFile q)
          ∨ a = Action.runCmd "systemctl".data ["restart".data, "coredns".data] []
          ∨ a = Action.runCmd "systemctl".data ["reload".data, "caddy".data] [])
      ∧ (crtPath (extractDomain path) ∈ w.fs
          → Action.removeFile (crtPath (extractDomain path)) ∈ tr5)
      ∧ (crtPath (extractDomain path) ∈ w.fs
          → keyPath (extractDomain path) ∈ w.fs
          → Action.removeFile (keyPath (extractDomain path)) ∈ tr5)
      ∧ (zonePath (extractDomain path) ∈ w.fs
          → Action.removeFile (zonePath (extractDomain path)) ∈ tr5)
      ∧ (corefilePath (extractDomain path) ∈ w.fs
          → Action.removeFile (corefilePath (extractDomain path)) ∈ tr5)
      ∧ (caddyfilePath (extractDomain path) ∈ w.fs
          → Action.removeFile (caddyfilePath (extractDomain path)) ∈ tr5) := by
  set d := extractDomain path with hd
  have hic : w.inj (crtPath d) = none := hinj _ (Ne.symm hne1)
  have hik : w.inj (keyPath d) = none := hinj _ (Ne.symm hne2)
  have hiz : w.inj (zonePath d) = none := hinj _ (Ne.symm hne3)
  have hio : w.inj (corefilePath d) = none := hinj _ (Ne.symm hne4)
  have hia : w.inj (caddyfilePath d) = none := hinj _ (Ne.symm hne5)
  -- step 1: certificates
  obtain ⟨fs1, t1, he1, hsub1, hnc1, hpres1, htr1, hmc1, hmk1⟩ :=
    removeCertificates_ok w.inj w.fs d hic hik
  -- step 2: zone file
  obtain ⟨t2, he2, htr2, hm2⟩ := removeTolerating_ok w.inj fs1 (zonePath d) hiz
  set fs2 := fs1.filter (fun q => q != zonePath d) with hfs2
  have hsub2 : List.Sublist fs2 fs1 := List.filter_sublist _
  -- step 3: dnssec keys
  have hnd2 : fs2.Nodup := ((hnd.sublist hsub1).sublist hsub2)
  have hinj2 : ∀ q ∈ fs2, (keysGlobPre d).isPrefixOf q = true → w.inj q = none :=
    fun q _ hq => hinj q (fun he => by rw [he] at hq; rw [hne6] at hq; cases hq)
  obtain ⟨fs3, he3, hsub3, hiff3⟩ := removeDnssecKey_ok w.inj fs2 d hnd2 hinj2
  -- step 4: corefile
  obtain ⟨t4, he4, htr4, hm4⟩ := removeTolerating_ok w.inj fs3 (corefilePath d) hio
  set fs4 := fs3.filter (fun q => q != corefilePath d) with hfs4
  have hsub4 : List.Sublist fs4 fs3 := List.filter_sublist _
  -- step 5: caddyfile
  obtain ⟨t5, he5, htr5, hm5⟩ :=
    removeTolerating_ok w.inj fs4 (caddyfilePath d) hia
  set fs5 := fs4.filter (fun q => q != caddyfilePath d) with hfs5
  have hsub5 : List.Sublist fs5 fs4 := List.filter_sublist _
  set t3 := (fs2.filter (fun q => (keysGlobPre d).isPrefixOf q)).map
    Action.removeFile with ht3
  have hsub52 : List.Sublist fs5 fs2 := (hsub5.trans hsub4).trans hsub3
  have hzc : zonePath d ≠ crtPath d := Ne.symm (crt_ne_zonePath d d)
  have hzk : zonePath d ≠ keyPath d := Ne.symm (key_ne_zonePath d d)
  have hcc : corefilePath d ≠ crtPath d := Ne.symm (crt_ne_corefilePath d d)
  have hck : corefilePath d ≠ keyPath d := Ne.symm (key_ne_corefilePath d d)
  have hcz : corefilePath d ≠ zonePath d := Ne.symm (zone_ne_corefilePath d d)
  have hac : caddyfilePath d ≠ crtPath d := Ne.symm (crt_ne_caddyfilePath d d)
  have hak : caddyfilePath d ≠ keyPath d := Ne.symm (key_ne_caddyfilePath d d)
  have haz : caddyfilePath d ≠ zonePath d := Ne.symm (zone_ne_caddyfilePath d d)
  have hao : caddyfilePath d ≠ corefilePath d :=
    Ne.symm (core_ne_caddyfilePath d d)
  refine ⟨fs5, t1 ++ t2 ++ t3 ++ t4 ++ t5
      ++ [Action.runCmd "systemctl".data ["restart".data, "coredns".data] []]
      ++ [Action.runCmd "systemctl".data ["reload".data, "caddy".data] []],
    ?_, ?_, ?_, ?_, ?_, ?_, ?_, ?_, ?_, ?_, ?_, ?_, ?_, ?_⟩
  · -- the run equation
    simp only [removeDomainTry, ← hd, removeZoneFile, removeCorefile,
      removeCaddyfile, he1, he2, he3, he4, he5, restartCoreDns_ok hres,
      reloadCaddy_ok hrel]
  · exact (hsub52.trans hsub2).trans hsub1
  · exact fun hm => hnc1 (hsub2.subset (hsub52.subset hm))
  · intro hm
    have h2 : zonePath d ∈ fs2 := hsub52.subset hm
    rw [hfs2] at h2
    have h3 := (List.mem_filter.mp h2).2
    simp at h3
  · intro hm
    have h2 : corefilePath d ∈ fs4 := hsub5.subset hm
    rw [hfs4] at h2
    have h3 := (List.mem_filter.mp h2).2
    simp at h3
  · intro hm
    rw [hfs5] at hm
    have h3 := (List.mem_filter.mp hm).2
    simp at h3
  · intro q hm
    have h3 : q ∈ fs3 := hsub4.subset (List.mem_of_mem_filter hm)
    exact ((hiff3 q).mp h3).2
  · intro q hq hq1 hq2 hq3 hq4 hq5 hq6
    have h1 : q ∈ fs1 := hpres1 q hq hq1 hq2
    have h2 : q ∈ fs2 := by
      rw [hfs2]; exact List.mem_filter.mpr ⟨h1, bne_iff_ne.mpr hq3⟩
    have h3 : q ∈ fs3 := (hiff3 q).mpr ⟨h2, hq6⟩
    have h4 : q ∈ fs4 := by
      rw [hfs4]; exact List.mem_filter.mpr ⟨h3, bne_iff_ne.mpr hq4⟩
    rw [hfs5]
    exact List.mem_filter.mpr ⟨h4, bne_iff_ne.mpr hq5⟩
  · intro a ha
    simp only [List.mem_append, List.mem_singleton] at ha
    rcases ha with (((((ha | ha) | ha) | ha) | ha) | ha) | ha
    · rcases htr1 a ha with h | h
      · exact Or.inl ⟨crtPath d, Ne.symm hne1, h⟩
      · exact Or.inl ⟨keyPath d, Ne.symm hne2, h⟩
    · exact Or.inl ⟨zonePath d, Ne.symm hne3, htr2 a ha⟩
    · rw [ht3] at ha
      obtain ⟨q, hq, hrm⟩ := List.mem_map.mp ha
      have hpre := (List.mem_filter.mp hq).2
      refine Or.inl ⟨q, fun he => ?_, hrm.symm⟩
      rw [he, hne6] at hpre
      cases hpre
    · exact Or.inl ⟨corefilePath d, Ne.symm hne4, htr4 a ha⟩
    · exact Or.inl ⟨caddyfilePath d, Ne.symm hne5, htr5 a ha⟩
    · exact Or.inr (Or.inl ha)
    · exact Or.inr (Or.inr ha)
  · intro hc
    have h := hmc1 hc
    simp only [List.mem_append]
    exact Or.inl (Or.inl (Or.inl (Or.inl (Or.inl (Or.inl h)))))
  · intro hc hk
    have h := hmk1 hc hk
    simp only [List.mem_append]
    exact Or.inl (Or.inl (Or.inl (Or.inl (Or.inl (Or.inl h)))))
  · intro hz
    have h := hm2 (hpres1 _ hz hzc hzk)
    simp only [List.mem_append]
    exact Or.inl (Or.inl (Or.inl (Or.inl (Or.inl (Or.inr h)))))
  · intro hco
    have h1 : corefilePath d ∈ fs1 := hpres1 _ hco hcc hck
    have h2 : corefilePath d ∈ fs2 := by
      rw [hfs2]; exact List.mem_filter.mpr ⟨h1, bne_iff_ne.mpr hcz⟩
    have h3 : corefilePath d ∈ fs3 :=
      (hiff3 _).mpr ⟨h2, keysGlob_not_pre_core d d⟩
    have h := hm4 h3
    simp only [List.mem_append]
    exact Or.inl (Or.inl (Or.inl (Or.inr h)))
  · intro hca
    have h1 : caddyfilePath d ∈ fs1 := hpres1 _ hca hac hak
    have h2 : caddyfilePath d ∈ fs2 := by
      rw [hfs2]; exact List.mem_filter.mpr ⟨h1, bne_iff_ne.mpr haz⟩
    have h3 : caddyfilePath d ∈ fs3 :=
      (hiff3 _).mpr ⟨h2, keysGlob_not_pre_caddy d d⟩
    have h4 : caddyfilePath d ∈ fs4 := by
      rw [hfs4]; exact List.mem_filter.mpr ⟨h3, bne_iff_ne.mpr hao⟩
    have h := hm5 h4
    simp only [List.mem_append]
    exact Or.inl (Or.inl (Or.inr h))

theorem finalContents_last_write (tr : List Action) (p c : Str) :
    finalContents (tr ++ [Action.writeFile p c]) p = some c := by
  unfold finalContents
  rw [List.foldl_append]
  simp

theorem filter_trig_nil {p : Str} {tr : List Action}
    (h : ∀ a ∈ tr, isTrigOp p a = false) : tr.filter (isTrigOp p) = [] :=
  List.filter_eq_nil_iff.mpr fun a ha => by
    rw [h a ha]; exact Bool.false_ne_true

theorem isTrigOp_runCmd (p prog : Str) (args : List Str)
    (envv : List (Str × Str)) : isTrigOp p (Action.runCmd prog args envv) = false :=
  rfl

theorem isTrigOp_writeFile_ne {p q : Str} (h : q ≠ p) (c : Str) :
    isTrigOp p (Action.writeFile q c) = false := by
  simp [isTrigOp, h]

theorem isTrigOp_removeFile_ne {p q : Str} (h : q ≠ p) :
    isTrigOp p (Action.removeFile q) = false := by
  simp [isTrigOp, h]

theorem generateCertificates_trace_sub (w : CreateWorld) (d p : Str) :
    ∀ a ∈ (generateCertificates w d).1, isTrigOp p a = false := by
  by_cases h1 : w.certs.code ≠ 0 <;> by_cases h2 : w.tlsa.code ≠ 0 <;>
    simp [generateCertificates, h1, h2, isTrigOp]

theorem generateDnssecKey_trace_sub (w : CreateWorld) (d p : Str) :
    ∀ a ∈ (generateDnssecKey w d).1, isTrigOp p a = false := by
  by_cases h1 : w.keygen.code ≠ 0 <;> simp [generateDnssecKey, h1, isTrigOp]

theorem generateDsRecord_trace_sub (w : CreateWorld) (d kf p : Str) :
    ∀ a ∈ (generateDsRecord w d kf).1, isTrigOp p a = false := by
  by_cases h1 : w.dsfromkey.code ≠ 0 <;> simp [generateDsRecord, h1, isTrigOp]

theorem createZoneFile_trace_sub (ecfg : EnvCfg) (w : CreateWorld)
    {d p : Str} (tl : Str) (h : zonePath d ≠ p) :
    ∀ a ∈ (createZoneFile ecfg w d tl).1, isTrigOp p a = false := by
  cases hwz : w.writeZone <;> simp [createZoneFile, hwz, isTrigOp, h]

theorem generateCorefile_trace_sub (w : CreateWorld) {d p : Str} (kf : Str)
    (h : corefilePath d ≠ p) :
    ∀ a ∈ (generateCorefile w d kf).1, isTrigOp p a = false := by
  cases hwc : w.writeCorefile <;> simp [generateCorefile, hwc, isTrigOp, h]

theorem generateCaddyFile_trace_sub (w : CreateWorld) {d p : Str}
    (h : caddyfilePath d ≠ p) :
    ∀ a ∈ (generateCaddyFile w d).1, isTrigOp p a = false := by
  cases hwc : w.writeCaddy with
  | error e => simp [generateCaddyFile, hwc]
  | ok u =>
    by_cases hv : w.validate.code ≠ 0
    · cases hrm : w.removeCaddy <;>
        simp [generateCaddyFile, hwc, hv, hrm, isTrigOp, h]
    · simp [generateCaddyFile, hwc, hv, isTrigOp, h]

theorem restartCoreDns_trace_sub (r : CmdResult) (p : Str) :
    ∀ a ∈ (restartCoreDns r).1, isTrigOp p a = false := by
  by_cases h1 : r.code ≠ 0 <;> simp [restartCoreDns, h1, isTrigOp]

theorem reloadCaddy_trace_sub (r : CmdResult) (p : Str) :
    ∀ a ∈ (reloadCaddy r).1, isTrigOp p a = false := by
  by_cases h1 : r.code ≠ 0 <;> simp [reloadCaddy, h1, isTrigOp]

theorem removeCertificates_trace_sub (inj : Str → Option Str) (fs : List Str)
    (d : Str) :
    ∀ a ∈ (removeCertificates inj fs d).2.1,
      a = Action.removeFile (crtPath d) ∨ a = Action.removeFile (keyPath d) := by
  rcases h1 : tryRemove inj fs (crtPath d) with ⟨fs1, r1⟩
  cases r1 with
  | ok =>
    rcases h2 : tryRemove inj fs1 (keyPath d) with ⟨fs2, r2⟩
    cases r2 <;> simp [removeCertificates, h1, h2]
  | notFound => simp [removeCertificates, h1]
  | err m => simp [removeCertificates, h1]

theorem removeTolerating_trace_sub (inj : Str → Option Str) (fs : List Str)
    (p : Str) :
    ∀ a ∈ (removeTolerating inj fs p).2.1, a = Action.removeFile p := by
  rcases h1 : tryRemove inj fs p with ⟨fs1, r1⟩
  cases r1 <;> simp [removeTolerating, h1]

theorem removeFilesGo_trace_sub (inj : Str → Option Str) :
    ∀ (ps fs : List Str) (acc : List Action),
      ∀ a ∈ (removeFilesGo inj ps fs acc).2.1,
        a ∈ acc ∨ ∃ q ∈ ps, a = Action.removeFile q
  | [], fs, acc => by simp [removeFilesGo]
  | p :: rest, fs, acc => by
    intro a ha
    rcases h1 : tryRemove inj fs p with ⟨fs1, r1⟩
    cases r1 with
    | ok =>
      rw [removeFilesGo, h1] at ha
      rcases removeFilesGo_trace_sub inj rest fs1
          (acc ++ [Action.removeFile p]) a ha with hmem | ⟨q, hq, he⟩
      · rcases List.mem_append.mp hmem with hmem | hmem
        · exact Or.inl hmem
        · refine Or.inr ⟨p, List.mem_cons_self _ _, ?_⟩
          simpa using hmem
      · exact Or.inr ⟨q, List.mem_cons_of_mem _ hq, he⟩
    | notFound =>
      rw [removeFilesGo, h1] at ha
      exact Or.inl ha
    | err m =>
      rw [removeFilesGo, h1] at ha
      exact Or.inl ha

theorem removeDnssecKey_trace_sub (inj : Str → Option Str) (fs : List Str)
    (d : Str) :
    ∀ a ∈ (removeDnssecKey inj fs d).2.1,
      ∃ q, (keysGlobPre d).isPrefixOf q = true ∧ a = Action.removeFile q := by
  intro a ha
  rcases removeFilesGo_trace_sub inj
      (fs.filter (fun q => (keysGlobPre d).isPrefixOf q)) fs [] a ha with
    hmem | ⟨q, hq, he⟩
  · simp at hmem
  · exact ⟨q, (List.mem_filter.mp hq).2, he⟩

theorem beq_false_of_ne {a b : Str} (h : a ≠ b) : (a == b) = false := by
  cases hb : a == b
  · rfl
  · exact absurd (eq_of_beq hb) h

theorem createTry_trigOps (ecfg : EnvCfg) (w : CreateWorld) (path : Str)
    (hz : zonePath (extractDomain path) ≠ path)
    (hco : corefilePath (extractDomain path) ≠ path)
    (hca : caddyfilePath (extractDomain path) ≠ path) :
    ((createDomainTry ecfg w path).2 = Except.ok ()
        ∧ ∃ ds tl, ((createDomainTry ecfg w path).1).filter (isTrigOp path)
          = [Action.writeFile path
              (successMessage ecfg (extractDomain path) ds tl)])
    ∨ ((∃ e, (createDomainTry ecfg w path).2 = Except.error e)
        ∧ ((createDomainTry ecfg w path).1).filter (isTrigOp path) = []) := by
  have bz := beq_false_of_ne hz
  have bco := beq_false_of_ne hco
  have bca := beq_false_of_ne hca
  by_cases h1 : w.certs.code ≠ 0
  · right
    simp [createDomainTry, generateCertificates, h1, isTrigOp]
  by_cases h2 : w.tlsa.code ≠ 0
  · right
    simp [createDomainTry, generateCertificates, h1, h2, isTrigOp]
  cases hwz : w.writeZone with
  | error e =>
    right
    simp [createDomainTry, generateCertificates, createZoneFile, h1, h2, hwz,
      isTrigOp]
  | ok u =>
  by_cases h3 : w.keygen.code ≠ 0
  · right
    simp [createDomainTry, generateCertificates, createZoneFile,
      generateDnssecKey, h1, h2, hwz, h3, isTrigOp, bz]
  cases hwc : w.writeCorefile with
  | error e =>
    right
    simp [createDomainTry, generateCertificates, createZoneFile,
      generateDnssecKey, generateCorefile, h1, h2, hwz, h3, hwc, isTrigOp, bz]
  | ok u2 =>
  by_cases h4 : w.dsfromkey.code ≠ 0
  · right
    simp [createDomainTry, generateCertificates, createZoneFile,
      generateDnssecKey, generateCorefile, generateDsRecord, h1, h2, hwz, h3,
      hwc, h4, isTrigOp, bz, bco]
  cases hwa : w.writeCaddy with
  | error e =>
    right
    simp [createDomainTry, generateCertificates, createZoneFile,
      generateDnssecKey, generateCorefile, generateDsRecord, generateCaddyFile,
      h1, h2, hwz, h3, hwc, h4, hwa, isTrigOp, bz, bco]
  | ok u3 =>
  by_cases h5 : w.validate.code ≠ 0
  · cases hrm : w.removeCaddy with
    | error e =>
      right
      simp [createDomainTry, generateCertificates, createZoneFile,
        generateDnssecKey, generateCorefile, generateDsRecord,
        generateCaddyFile, h1, h2, hwz, h3, hwc, h4, hwa, h5, hrm, isTrigOp,
        bz, bco, bca]
    | ok u4 =>
      right
      simp [createDomainTry, generateCertificates, createZoneFile,
        generateDnssecKey, generateCorefile, generateDsRecord,
        generateCaddyFile, h1, h2, hwz, h3, hwc, h4, hwa, h5, hrm, isTrigOp,
        bz, bco, bca]
  by_cases h6 : w.restart.code ≠ 0
  · right
    simp [createDomainTry, generateCertificates, createZoneFile,
      generateDnssecKey, generateCorefile, generateDsRecord, generateCaddyFile,
      restartCoreDns, h1, h2, hwz, h3, hwc, h4, hwa, h5, h6, isTrigOp,
      bz, bco, bca]
  by_cases h7 : w.reload.code ≠ 0
  · right
    simp [createDomainTry, generateCertificates, createZoneFile,
      generateDnssecKey, generateCorefile, generateDsRecord, generateCaddyFile,
      restartCoreDns, reloadCaddy, h1, h2, hwz, h3, hwc, h4, hwa, h5, h6, h7,
      isTrigOp, bz, bco, bca]
  cases hwt : w.writeTriggerTry with
  | error e =>
    right
    simp [createDomainTry, generateCertificates, createZoneFile,
      generateDnssecKey, generateCorefile, generateDsRecord, generateCaddyFile,
      restartCoreDns, reloadCaddy, h1, h2, hwz, h3, hwc, h4, hwa, h5, h6, h7,
      hwt, isTrigOp, bz, bco, bca]
  | ok u5 =>
    left
    constructor
    · simp [createDomainTry, generateCertificates, createZoneFile,
        generateDnssecKey, generateCorefile, generateDsRecord,
        generateCaddyFile, restartCoreDns, reloadCaddy, h1, h2, hwz, h3, hwc,
        h4, hwa, h5, h6, h7, hwt]
    · refine ⟨dsFromOutput (extractDomain path) w.dsfromkey.stdout,
        jsTrim w.tlsa.stdout, ?_⟩
      simp [createDomainTry, generateCertificates, createZoneFile,
        generateDnssecKey, generateCorefile, generateDsRecord,
        generateCaddyFile, restartCoreDns, reloadCaddy, h1, h2, hwz, h3, hwc,
        h4, hwa, h5, h6, h7, hwt, isTrigOp, bz, bco, bca]

theorem removeTry_trigOps (v : RemoveWorld) (path : Str)
    (hc : crtPath (extractDomain path) ≠ path)
    (hk : keyPath (extractDomain path) ≠ path)
    (hzz : zonePath (extractDomain path) ≠ path)
    (hoo : corefilePath (extractDomain path) ≠ path)
    (haa : caddyfilePath (extractDomain path) ≠ path)
    (hg : (keysGlobPre (extractDomain path)).isPrefixOf path = false) :
    ((removeDomainTry v path).2.2 = Except.ok ()
        ∧ ((removeDomainTry v path).2.1).filter (isTrigOp path)
          = [Action.removeFile path])
    ∨ ((∃ e, (removeDomainTry v path).2.2 = Except.error e)
        ∧ ((removeDomainTry v path).2.1).filter (isTrigOp path) = []) := by
  rcases h1 : removeCertificates v.inj v.fs (extractDomain path)
    with ⟨fs1, t1, r1⟩
  have F1 : t1.filter (isTrigOp path) = [] := by
    apply filter_trig_nil
    intro a ha
    have ha' : a ∈ (removeCertificates v.inj v.fs (extractDomain path)).2.1 := by
      rw [h1]; exact ha
    rcases removeCertificates_trace_sub v.inj v.fs (extractDomain path) a ha'
      with h | h <;> rw [h]
    · exact isTrigOp_removeFile_ne hc
    · exact isTrigOp_removeFile_ne hk
  cases r1 with
  | error e =>
    right
    simp [removeDomainTry, h1, F1]
  | ok u1 =>
  rcases h2 : removeZoneFile v.inj fs1 (extractDomain path) with ⟨fs2, t2, r2⟩
  have F2 : t2.filter (isTrigOp path) = [] := by
    apply filter_trig_nil
    intro a ha
    have ha' : a ∈ (removeTolerating v.inj fs1
        (zonePath (extractDomain path))).2.1 := by
      rw [show removeTolerating v.inj fs1 (zonePath (extractDomain path))
          = (fs2, t2, r2) from h2]
      exact ha
    rw [removeTolerating_trace_sub _ _ _ a ha']
    exact isTrigOp_removeFile_ne hzz
  cases r2 with
  | error e =>
    right
    simp [removeDomainTry, h1, h2, List.filter_append, F1, F2]
  | ok u2 =>
  rcases h3 : removeDnssecKey v.inj fs2 (extractDomain path) with ⟨fs3, t3, r3⟩
  have F3 : t3.filter (isTrigOp path) = [] := by
    apply filter_trig_nil
    intro a ha
    have ha' : a ∈ (removeDnssecKey v.inj fs2 (extractDomain path)).2.1 := by
      rw [h3]; exact ha
    obtain ⟨q, hq, he⟩ :=
      removeDnssecKey_trace_sub v.inj fs2 (extractDomain path) a ha'
    rw [he]
    refine isTrigOp_removeFile_ne fun hqe => ?_
    rw [hqe, hg] at hq
    cases hq
  cases r3 with
  | error e =>
    right
    simp [removeDomainTry, h1, h2, h3, List.filter_append, F1, F2, F3]
  | ok u3 =>
  rcases h4 : removeCorefile v.inj fs3 (extractDomain path) with ⟨fs4, t4, r4⟩
  have F4 : t4.filter (isTrigOp path) = [] := by
    apply filter_trig_nil
    intro a ha
    have ha' : a ∈ (removeTolerating v.inj fs3
        (corefilePath (extractDomain path))).2.1 := by
      rw [show removeTolerating v.inj fs3 (corefilePath (extractDomain path))
          = (fs4, t4, r4) from h4]
      exact ha
    rw [removeTolerating_trace_sub _ _ _ a ha']
    exact isTrigOp_removeFile_ne hoo
  cases r4 with
  | error e =>
    right
    simp [removeDomainTry, h1, h2, h3, h4, List.filter_append, F1, F2, F3, F4]
  | ok u4 =>
  rcases h5 : removeCaddyfile v.inj fs4 (extractDomain path) with ⟨fs5, t5, r5⟩
  have F5 : t5.filter (isTrigOp path) = [] := by
    apply filter_trig_nil
    intro a ha
    have ha' : a ∈ (removeTolerating v.inj fs4
        (caddyfilePath (extractDomain path))).2.1 := by
      rw [show removeTolerating v.inj fs4 (caddyfilePath (extractDomain path))
          = (fs5, t5, r5) from h5]
      exact ha
    rw [removeTolerating_trace_sub _ _ _ a ha']
    exact isTrigOp_removeFile_ne haa
  cases r5 with
  | error e =>
    right
    simp [removeDomainTry, h1, h2, h3, h4, h5, List.filter_append,
      F1, F2, F3, F4, F5]
  | ok u5 =>
  by_cases h6 : v.restart.code ≠ 0
  · right
    simp [removeDomainTry, h1, h2, h3, h4, h5, restartCoreDns, h6,
      List.filter_append, F1, F2, F3, F4, F5, isTrigOp]
  by_cases h7 : v.reload.code ≠ 0
  · right
    simp [removeDomainTry, h1, h2, h3, h4, h5, restartCoreDns, reloadCaddy,
      h6, h7, List.filter_append, F1, F2, F3, F4, F5, isTrigOp]
  rcases h8 : tryRemove v.inj fs5 path with ⟨fs6, res⟩
  cases res with
  | ok =>
    left
    constructor
    · simp [removeDomainTry, h1, h2, h3, h4, h5, restartCoreDns, reloadCaddy,
        h6, h7, h8]
    · simp [removeDomainTry, h1, h2, h3, h4, h5, restartCoreDns, reloadCaddy,
        h6, h7, h8, List.filter_append, F1, F2, F3, F4, F5, isTrigOp]
  | notFound =>
    right
    simp [removeDomainTry, h1, h2, h3, h4, h5, restartCoreDns, reloadCaddy,
      h6, h7, h8, List.filter_append, F1, F2, F3, F4, F5, isTrigOp]
  | err m =>
    right
    simp [removeDomainTry, h1, h2, h3, h4, h5, restartCoreDns, reloadCaddy,
      h6, h7, h8, List.filter_append, F1, F2, F3, F4, F5, isTrigOp]

theorem createDomain_trigOps (ecfg : EnvCfg) (w : CreateWorld) (cpath : Str)
    (hcacc : testDomainRegex cpath = true) :
    (((createDomain ecfg w cpath).1.filter (isTrigOp cpath)).length ≤ 1)
    ∧ ((∃ ds tl, (createDomain ecfg w cpath).1.filter (isTrigOp cpath)
          = [Action.writeFile cpath
              (successMessage ecfg (extractDomain cpath) ds tl)])
        ∨ (∃ e, (createDomain ecfg w cpath).1.filter (isTrigOp cpath)
            = [Action.writeFile cpath (errTag ++ e)])
        ∨ (createDomain ecfg w cpath).1.filter (isTrigOp cpath) = [])
    ∧ (w.writeTriggerCatch = .ok () →
        (createDomain ecfg w cpath).2 = none
        ∧ ((∃ ds tl, (createDomain ecfg w cpath).1.filter (isTrigOp cpath)
              = [Action.writeFile cpath
                  (successMessage ecfg (extractDomain cpath) ds tl)])
            ∨ ∃ e, (createDomain ecfg w cpath).1.filter (isTrigOp cpath)
              = [Action.writeFile cpath (errTag ++ e)])) := by
  obtain ⟨u, rr, hdec, -, -⟩ := domain_decomp hcacc
  have hpform : cpath = homeSlash ++ (u ++ '/' :: rr) := by
    rw [hdec, List.append_assoc]
  have hz : zonePath (extractDomain cpath) ≠ cpath := by
    rw [hpform]; exact (home_ne_zonePath _ _).symm
  have hco : corefilePath (extractDomain cpath) ≠ cpath := by
    rw [hpform]; exact (home_ne_corefilePath _ _).symm
  have hca : caddyfilePath (extractDomain cpath) ≠ cpath := by
    rw [hpform]; exact (home_ne_caddyfilePath _ _).symm
  rcases hT : createDomainTry ecfg w cpath with ⟨t0, r0⟩
  rcases createTry_trigOps ecfg w cpath hz hco hca with
    ⟨hok, ds, tl, hfil⟩ | ⟨⟨e0, herr⟩, hfil⟩
  · have hr0 : r0 = Except.ok () := by rw [hT] at hok; exact hok
    subst hr0
    have hft : t0.filter (isTrigOp cpath)
        = [Action.writeFile cpath
            (successMessage ecfg (extractDomain cpath) ds tl)] := by
      rw [hT] at hfil; exact hfil
    have hcd : createDomain ecfg w cpath = (t0, none) := by
      simp [createDomain, hT]
    rw [hcd]
    refine ⟨?_, ?_, ?_⟩
    · show (t0.filter (isTrigOp cpath)).length ≤ 1
      rw [hft]; simp
    · exact Or.inl ⟨ds, tl, hft⟩
    · exact fun _ => ⟨rfl, Or.inl ⟨ds, tl, hft⟩⟩
  · have hr0 : r0 = Except.error e0 := by rw [hT] at herr; exact herr
    subst hr0
    have hft : t0.filter (isTrigOp cpath) = [] := by
      rw [hT] at hfil; exact hfil
    cases hct : w.writeTriggerCatch with
    | ok u0 =>
      have hcd : createDomain ecfg w cpath
          = (t0 ++ [Action.writeFile cpath (errTag ++ e0)], none) := by
        simp [createDomain, hT, hct]
      rw [hcd]
      have hfe : (t0 ++ [Action.writeFile cpath (errTag ++ e0)]).filter
          (isTrigOp cpath) = [Action.writeFile cpath (errTag ++ e0)] := by
        rw [List.filter_append, hft]
        simp [isTrigOp]
      refine ⟨?_, ?_, ?_⟩
      · show ((t0 ++ [Action.writeFile cpath (errTag ++ e0)]).filter
            (isTrigOp cpath)).length ≤ 1
        rw [hfe]; simp
      · exact Or.inr (Or.inl ⟨e0, hfe⟩)
      · exact fun _ => ⟨rfl, Or.inr ⟨e0, hfe⟩⟩
    | error e2 =>
      have hcd : createDomain ecfg w cpath = (t0, some e2) := by
        simp [createDomain, hT, hct]
      rw [hcd]
      refine ⟨?_, ?_, ?_⟩
      · show (t0.filter (isTrigOp cpath)).length ≤ 1
        rw [hft]; simp
      · exact Or.inr (Or.inr hft)
      · intro hctc
        exact Except.noConfusion hctc

theorem removeDomain_trigOps (v : RemoveWorld) (rpath : Str)
    (hracc : testRemoveDomainRegex rpath = true) :
    (((removeDomain v rpath).trace.filter (isTrigOp rpath)).length ≤ 1)
    ∧ ((removeDomain v rpath).trace.filter (isTrigOp rpath)
          = [Action.removeFile rpath]
        ∨ (∃ e, (removeDomain v rpath).trace.filter (isTrigOp rpath)
            = [Action.writeFile rpath (errTag ++ e)])
        ∨ (removeDomain v rpath).trace.filter (isTrigOp rpath) = [])
    ∧ (v.writeCatch = .ok () →
        (removeDomain v rpath).escaped = none
        ∧ ((removeDomain v rpath).trace.filter (isTrigOp rpath)
              = [Action.removeFile rpath]
            ∨ ∃ e, (removeDomain v rpath).trace.filter (isTrigOp rpath)
              = [Action.writeFile rpath (errTag ++ e)])) := by
  obtain ⟨u, rr, hdec, -, -⟩ := removeRegex_decomp hracc
  have hpform : rpath = homeSlash ++ (u ++ '/' :: rr) := by
    rw [hdec, List.append_assoc]
  have hc : crtPath (extractDomain rpath) ≠ rpath := by
    rw [hpform]; exact (home_ne_crtPath _ _).symm
  have hk : keyPath (extractDomain rpath) ≠ rpath := by
    rw [hpform]; exact (home_ne_keyPath _ _).symm
  have hzz : zonePath (extractDomain rpath) ≠ rpath := by
    rw [hpform]; exact (home_ne_zonePath _ _).symm
  have hoo : corefilePath (extractDomain rpath) ≠ rpath := by
    rw [hpform]; exact (home_ne_corefilePath _ _).symm
  have haa : caddyfilePath (extractDomain rpath) ≠ rpath := by
    rw [hpform]; exact (home_ne_caddyfilePath _ _).symm
  have hg : (keysGlobPre (extractDomain rpath)).isPrefixOf rpath = false := by
    rw [hpform]; exact keysGlob_not_pre _ _
  rcases hT : removeDomainTry v rpath with ⟨fsx, t0, r0⟩
  rcases removeTry_trigOps v rpath hc hk hzz hoo haa hg with
    ⟨hok, hfil⟩ | ⟨⟨e0, herr⟩, hfil⟩
  · have hr0 : r0 = Except.ok () := by rw [hT] at hok; exact hok
    subst hr0
    have hft : t0.filter (isTrigOp rpath) = [Action.removeFile rpath] := by
      rw [hT] at hfil; exact hfil
    have hcd : removeDomain v rpath = ⟨fsx, t0, none⟩ := by
      simp [removeDomain, hT]
    rw [hcd]
    refine ⟨?_, Or.inl hft, fun _ => ⟨rfl, Or.inl hft⟩⟩
    show (t0.filter (isTrigOp rpath)).length ≤ 1
    rw [hft]; simp
  · have hr0 : r0 = Except.error e0 := by rw [hT] at herr; exact herr
    subst hr0
    have hft : t0.filter (isTrigOp rpath) = [] := by
      rw [hT] at hfil; exact hfil
    cases hct : v.writeCatch with
    | ok u0 =>
      have hcd : removeDomain v rpath
          = ⟨fsx, t0 ++ [Action.writeFile rpath (errTag ++ e0)], none⟩ := by
        simp [removeDomain, hT, hct]
      rw [hcd]
      have hfe : (t0 ++ [Action.writeFile rpath (errTag ++ e0)]).filter
          (isTrigOp rpath) = [Action.writeFile rpath (errTag ++ e0)] := by
        rw [List.filter_append, hft]
        simp [isTrigOp]
      refine ⟨?_, Or.inr (Or.inl ⟨e0, hfe⟩), fun _ => ⟨rfl, Or.inr ⟨e0, hfe⟩⟩⟩
      show ((t0 ++ [Action.writeFile rpath (errTag ++ e0)]).filter
          (isTrigOp rpath)).length ≤ 1
      rw [hfe]; simp
    | error e2 =>
      have hcd : removeDomain v rpath = ⟨fsx, t0, some e2⟩ := by
        simp [removeDomain, hT, hct]
      rw [hcd]
      refine ⟨?_, Or.inr (Or.inr hft), ?_⟩
      · show (t0.filter (isTrigOp rpath)).length ≤ 1
        rw [hft]; simp
      · intro hctc
        exact Except.noConfusion hctc

theorem createDomain_no_escape (ecfg : EnvCfg) (w : CreateWorld) (path : Str)
    (h : w.writeTriggerCatch = .ok ()) :
    (createDomain ecfg w path).2 = none := by
  cases hct : createDomainTry ecfg w path with
  | mk t r => cases r <;> simp [createDomain, hct, h]

theorem removeDomain_no_escape (w : RemoveWorld) (path : Str)
    (h : w.writeCatch = .ok ()) :
    (removeDomain w path).escaped = none := by
  rcases hct : removeDomainTry w path with ⟨fs1, t, r⟩
  cases r <;> simp [removeDomain, hct, h]

/-! ## Claim theorems -/

/-- C1: the claim says the create pipeline is dispatched iff the created path
has exactly the shape `<root>/<user>/.domain` (and remove iff
`.remove-domain`).  The code DIVERGES: the dot in `domainRegex` /
`removeDomainRegex` is an unescaped regex dot, so e.g. creating `xdomain` in
`/home/alice` dispatches the create pipeline and `xremove-domain` dispatches
the remove pipeline, although neither path has the claimed shape.  On the
genuinely well-shaped paths, classifier and shape agree and the extracted
domain is the `<user>` segment. -/
theorem claim_C1 :
    testDomainRegex "/home/alice/xdomain".data = true
      ∧ isCreateTriggerShape "/home/alice/xdomain".data = false
      ∧ testRemoveDomainRegex "/home/alice/xremove-domain".data = true
      ∧ isRemoveTriggerShape "/home/alice/xremove-domain".data = false
      ∧ testDomainRegex "/home/alice/.domain".data = true
      ∧ isCreateTriggerShape "/home/alice/.domain".data = true
      ∧ testRemoveDomainRegex "/home/alice/.remove-domain".data = true
      ∧ isRemoveTriggerShape "/home/alice/.remove-domain".data = true
      ∧ extractDomain "/home/alice/xdomain".data = "alice".data := by
  decide

/-- C2 counterexample: the classifier accepts `/home//.domain` and
`/home//.remove-domain` (the regex `[^/]*` happily matches an EMPTY user
segment), and the extracted domain name is the empty string — refuting the
claim that the domain passed into a pipeline is always non-empty. -/
theorem claim_C2_cex :
    testDomainRegex "/home//.domain".data = true
      ∧ extractDomain "/home//.domain".data = []
      ∧ testRemoveDomainRegex "/home//.remove-domain".data = true
      ∧ extractDomain "/home//.remove-domain".data = [] := by
  decide

/-- C2 (amended): for every trigger path accepted by the classifier, the
domain name passed into the pipeline is exactly the `<user>` path segment
between the watched root and the following slash; it is therefore non-empty
whenever that user-directory segment is non-empty — but the code itself does
not rule out an empty segment (see the counterexample). -/
theorem claim_C2 (p : Str)
    (h : testDomainRegex p = true ∨ testRemoveDomainRegex p = true) :
    ∃ u r, p = homeSlash ++ u ++ '/' :: r ∧ '/' ∉ u ∧ extractDomain p = u
      ∧ (u ≠ [] → extractDomain p ≠ []) := by
  have hd : ∃ u r, p = homeSlash ++ u ++ '/' :: r ∧ '/' ∉ u
      ∧ extractDomain p = u := by
    rcases h with h | h
    · exact domain_decomp h
    · exact removeRegex_decomp h
  obtain ⟨u, r, h1, h2, h3⟩ := hd
  exact ⟨u, r, h1, h2, h3, fun hne => by rw [h3]; exact hne⟩

/-- C2 witness: the amended statement instantiated at `/home/alice/.domain`. -/
theorem claim_C2_w :
    ∃ u r, pCreate = homeSlash ++ u ++ '/' :: r ∧ '/' ∉ u
      ∧ extractDomain pCreate = u
      ∧ (u ≠ [] → extractDomain pCreate ≠ []) :=
  claim_C2 pCreate (Or.inl (by decide))

/-- C3: a classified trigger (create or remove) whose file is owned by uid 0
produces no effect whatsoever — neither pipeline runs, nothing is written or
deleted (`processPath` yields the empty trace) — and the loop continues with
the remaining paths exactly as if the trigger had not been there. -/
theorem claim_C3 (ecfg : EnvCfg) (it : PathItem)
    (hclass : testDomainRegex it.path = true
      ∨ testRemoveDomainRegex it.path = true)
    (hroot : it.statUid = .ok 0) :
    processPath ecfg it = .ok []
      ∧ ∀ rest, processPaths ecfg (it :: rest) = processPaths ecfg rest := by
  have hmain : processPath ecfg it = .ok [] := by
    rcases hclass with h | h
    · simp [processPath, h, hroot]
    · have hd := remove_excludes_domain h
      simp [processPath, h, hd, hroot]
  refine ⟨hmain, fun rest => ?_⟩
  show (match processPath ecfg it with
    | .error e => .error e
    | .ok t =>
      match processPaths ecfg rest with
      | .error e => .error e
      | .ok t2 => .ok (t ++ t2)) = processPaths ecfg rest
  rw [hmain]
  cases hrest : processPaths ecfg rest <;> simp

/-- C3 witness: a root-owned `.domain` trigger in an otherwise effectful world
is skipped and the loop equation holds. -/
theorem claim_C3_w :
    processPath ecfg0 ⟨pCreate, .ok 0, cwOk, rwOk⟩ = .ok []
      ∧ ∀ rest, processPaths ecfg0 (⟨pCreate, .ok 0, cwOk, rwOk⟩ :: rest)
          = processPaths ecfg0 rest :=
  claim_C3 ecfg0 ⟨pCreate, .ok 0, cwOk, rwOk⟩ (Or.inl (by decide)) rfl

/-- C6 counterexample: for domain `a` and tool output `xa. IN DS 1` (which
does NOT start with the prefix `a. IN DS `), the code removes the first
occurrence of the pattern ANYWHERE in the output — yielding `x1` — whereas
the claim (strip exactly the literal prefix, then trim) yields the trimmed
output unchanged. -/
theorem claim_C6_cex :
    dsFromOutput "a".data "xa. IN DS 1".data = "x1".data
      ∧ specDsStrip "a".data "xa. IN DS 1".data = "xa. IN DS 1".data
      ∧ dsFromOutput "a".data "xa. IN DS 1".data
          ≠ specDsStrip "a".data "xa. IN DS 1".data := by
  decide

/-- C6 (amended): whenever the tool output begins with the literal prefix
`<domain>. IN DS ` — the documented tool contract — the DS record used by the
pipeline is exactly that output with the prefix removed and the surrounding
whitespace trimmed; in general the code removes the FIRST occurrence of the
pattern anywhere in the output, not specifically a prefix. -/
theorem claim_C6 (d out : Str) (h : (dsPre d).isPrefixOf out = true) :
    dsFromOutput d out = jsTrim (out.drop (dsPre d).length) := by
  unfold dsFromOutput jsReplaceFirst
  have h0 : firstOccurIdx out (dsPre d) = some 0 := by
    cases out with
    | nil => simp [firstOccurIdx, h]
    | cons c t => simp [firstOccurIdx, h]
  rw [h0]
  simp

/-- C6 witness: the amended statement instantiated at a realistic
`dnssec-dsfromkey` output. -/
theorem claim_C6_w :
    (dsPre "alice.example".data).isPrefixOf
        "alice.example. IN DS 12345 13 2 ABCDEF\n".data = true
      ∧ dsFromOutput "alice.example".data
          "alice.example. IN DS 12345 13 2 ABCDEF\n".data
        = jsTrim (("alice.example. IN DS 12345 13 2 ABCDEF\n".data).drop
            (dsPre "alice.example".data).length) :=
  ⟨by decide, claim_C6 "alice.example".data _ (by decide)⟩

/-- C7: when the reverse-proxy config validation call exits non-zero, the
just-written Caddyfile fragment is removed again before the error is
surfaced: the run's net effect on the fragment path is nothing (`none`), the
write and the removal are both in the trace, and the trigger file ends up
carrying the validation error text. -/
theorem claim_C7 (ecfg : EnvCfg) (w : CreateWorld) (path : Str)
    (hacc : testDomainRegex path = true)
    (h0 : w.certs.code = 0) (h1 : w.tlsa.code = 0) (h2 : w.keygen.code = 0)
    (h3 : w.dsfromkey.code = 0) (hv : w.validate.code ≠ 0)
    (hwz : w.writeZone = .ok ()) (hwc : w.writeCorefile = .ok ())
    (hwcad : w.writeCaddy = .ok ()) (hrm : w.removeCaddy = .ok ())
    (hcatch : w.writeTriggerCatch = .ok ()) :
    (createDomain ecfg w path).2 = none
      ∧ Action.writeFile (caddyfilePath (extractDomain path))
          (caddyfileContents (extractDomain path)) ∈ (createDomain ecfg w path).1
      ∧ Action.removeFile (caddyfilePath (extractDomain path))
          ∈ (createDomain ecfg w path).1
      ∧ finalContents (createDomain ecfg w path).1
          (caddyfilePath (extractDomain path)) = none
      ∧ finalContents (createDomain ecfg w path).1 path
          = some (errTag ++ ("Failed to validate Caddyfile: ".data
              ++ w.validate.stderr)) := by
  obtain ⟨u, rr, hdec, -, -⟩ := domain_decomp hacc
  have hpform : path = homeSlash ++ (u ++ '/' :: rr) := by
    rw [hdec, List.append_assoc]
  have hz : path ≠ zonePath (extractDomain path) := by
    rw [hpform]; exact home_ne_zonePath _ _
  have hco : path ≠ corefilePath (extractDomain path) := by
    rw [hpform]; exact home_ne_corefilePath _ _
  have hca : path ≠ caddyfilePath (extractDomain path) := by
    rw [hpform]; exact home_ne_caddyfilePath _ _
  have hzc : zonePath (extractDomain path) ≠ caddyfilePath (extractDomain path) :=
    zone_ne_caddyfilePath _ _
  have hcc : corefilePath (extractDomain path)
      ≠ caddyfilePath (extractDomain path) := core_ne_caddyfilePath _ _
  simp [createDomain, createDomainTry, generateCertificates, createZoneFile,
    generateDnssecKey, generateCorefile, generateDsRecord, generateCaddyFile,
    restartCoreDns, reloadCaddy, h0, h1, h2, h3, hv, hwz, hwc, hwcad, hrm,
    hcatch, finalContents, hz, hco, hca, hzc, hcc, Ne.symm hz, Ne.symm hco,
    Ne.symm hca, Ne.symm hzc, Ne.symm hcc]

/-- C7 witness: the theorem instantiated at `cwValidateFail`. -/
theorem claim_C7_w :
    (createDomain ecfg0 cwValidateFail pCreate).2 = none
      ∧ Action.writeFile (caddyfilePath (extractDomain pCreate))
          (caddyfileContents (extractDomain pCreate))
          ∈ (createDomain ecfg0 cwValidateFail pCreate).1
      ∧ Action.removeFile (caddyfilePath (extractDomain pCreate))
          ∈ (createDomain ecfg0 cwValidateFail pCreate).1
      ∧ finalContents (createDomain ecfg0 cwValidateFail pCreate).1
          (caddyfilePath (extractDomain pCreate)) = none
      ∧ finalContents (createDomain ecfg0 cwValidateFail pCreate).1 pCreate
          = some (errTag ++ ("Failed to validate Caddyfile: ".data
              ++ cwValidateFail.validate.stderr)) :=
  claim_C7 ecfg0 cwValidateFail pCreate (by decide) rfl rfl rfl rfl (by decide)
    rfl rfl rfl rfl rfl

/-- C4: in a provisioning run whose first failing external call is call `k`
(0 = certificates.sh, 1 = tlsa.sh, 2 = dnssec-keygen, 3 = dnssec-dsfromkey,
4 = caddy validate, 5 = systemctl restart, 6 = systemctl reload), exactly the
calls 0..k are invoked and the later ones never run; the trigger file ends up
containing `Error: <message>` with call `k`'s error text and is not deleted;
and the artifacts written by the steps before the failure stay on disk — the
only removal a failing run ever performs is that of the Caddyfile fragment
inside its own failing validation step (`k = 4`), never a rollback of an
earlier step's artifact. -/
theorem claim_C4 (ecfg : EnvCfg) (w : CreateWorld) (path : Str) (k : Nat)
    (hacc : testDomainRegex path = true)
    (hk : k < 7)
    (hpre : ∀ j, j < k → (createCodes w).getD j 1 = 0)
    (hfail : (createCodes w).getD k 1 ≠ 0)
    (hwz : w.writeZone = .ok ()) (hwc : w.writeCorefile = .ok ())
    (hwcad : w.writeCaddy = .ok ()) (hrm : w.removeCaddy = .ok ())
    (hcatch : w.writeTriggerCatch = .ok ()) :
    (createDomain ecfg w path).2 = none
      ∧ cmdsOf (createDomain ecfg w path).1
          = (createCalls w (extractDomain path)).take (k + 1)
      ∧ finalContents (createDomain ecfg w path).1 path
          = some (errTag ++ createErrMsg w k)
      ∧ Action.removeFile path ∉ (createDomain ecfg w path).1
      ∧ (2 ≤ k → Action.writeFile (zonePath (extractDomain path))
            (zoneContents ecfg (extractDomain path) (jsTrim w.tlsa.stdout))
          ∈ (createDomain ecfg w path).1)
      ∧ (3 ≤ k → Action.writeFile (corefilePath (extractDomain path))
            (corefileContents (extractDomain path) (jsTrim w.keygen.stdout))
          ∈ (createDomain ecfg w path).1)
      ∧ (5 ≤ k → Action.writeFile (caddyfilePath (extractDomain path))
            (caddyfileContents (extractDomain path))
          ∈ (createDomain ecfg w path).1)
      ∧ (∀ q, Action.removeFile q ∈ (createDomain ecfg w path).1
          → q = caddyfilePath (extractDomain path) ∧ k = 4) := by
  obtain ⟨u, rr, hdec, -, -⟩ := domain_decomp hacc
  have hpform : path = homeSlash ++ (u ++ '/' :: rr) := by
    rw [hdec, List.append_assoc]
  have hz : path ≠ zonePath (extractDomain path) := by
    rw [hpform]; exact home_ne_zonePath _ _
  have hco : path ≠ corefilePath (extractDomain path) := by
    rw [hpform]; exact home_ne_corefilePath _ _
  have hca : path ≠ caddyfilePath (extractDomain path) := by
    rw [hpform]; exact home_ne_caddyfilePath _ _
  have hzc := zone_ne_caddyfilePath (extractDomain path) (extractDomain path)
  have hcc := core_ne_caddyfilePath (extractDomain path) (extractDomain path)
  have hzo := zone_ne_corefilePath (extractDomain path) (extractDomain path)
  interval_cases k
  · have f0 : w.certs.code ≠ 0 := by simpa [createCodes] using hfail
    simp [createDomain, createDomainTry, generateCertificates, createZoneFile,
      generateDnssecKey, generateCorefile, generateDsRecord, generateCaddyFile,
      restartCoreDns, reloadCaddy, f0, hwz, hwc, hwcad, hrm, hcatch,
      finalContents, cmdsOf, isRunCmd, createCalls, createErrMsg,
      hz, hco, hca, Ne.symm hz, Ne.symm hco, Ne.symm hca, hzc, hcc, hzo,
      Ne.symm hzc, Ne.symm hcc, Ne.symm hzo]
  · have e0 : w.certs.code = 0 := by simpa [createCodes] using hpre 0 (by omega)
    have f1 : w.tlsa.code ≠ 0 := by simpa [createCodes] using hfail
    simp [createDomain, createDomainTry, generateCertificates, createZoneFile,
      generateDnssecKey, generateCorefile, generateDsRecord, generateCaddyFile,
      restartCoreDns, reloadCaddy, e0, f1, hwz, hwc, hwcad, hrm, hcatch,
      finalContents, cmdsOf, isRunCmd, createCalls, createErrMsg,
      hz, hco, hca, Ne.symm hz, Ne.symm hco, Ne.symm hca, hzc, hcc, hzo,
      Ne.symm hzc, Ne.symm hcc, Ne.symm hzo]
  · have e0 : w.certs.code = 0 := by simpa [createCodes] using hpre 0 (by omega)
    have e1 : w.tlsa.code = 0 := by simpa [createCodes] using hpre 1 (by omega)
    have f2 : w.keygen.code ≠ 0 := by simpa [createCodes] using hfail
    simp [createDomain, createDomainTry, generateCertificates, createZoneFile,
      generateDnssecKey, generateCorefile, generateDsRecord, generateCaddyFile,
      restartCoreDns, reloadCaddy, e0, e1, f2, hwz, hwc, hwcad, hrm, hcatch,
      finalContents, cmdsOf, isRunCmd, createCalls, createErrMsg,
      hz, hco, hca, Ne.symm hz, Ne.symm hco, Ne.symm hca, hzc, hcc, hzo,
      Ne.symm hzc, Ne.symm hcc, Ne.symm hzo]
  · have e0 : w.certs.code = 0 := by simpa [createCodes] using hpre 0 (by omega)
    have e1 : w.tlsa.code = 0 := by simpa [createCodes] using hpre 1 (by omega)
    have e2 : w.keygen.code = 0 := by simpa [createCodes] using hpre 2 (by omega)
    have f3 : w.dsfromkey.code ≠ 0 := by simpa [createCodes] using hfail
    simp [createDomain, createDomainTry, generateCertificates, createZoneFile,
      generateDnssecKey, generateCorefile, generateDsRecord, generateCaddyFile,
      restartCoreDns, reloadCaddy, e0, e1, e2, f3, hwz, hwc, hwcad, hrm, hcatch,
      finalContents, cmdsOf, isRunCmd, createCalls, createErrMsg,
      hz, hco, hca, Ne.symm hz, Ne.symm hco, Ne.symm hca, hzc, hcc, hzo,
      Ne.symm hzc, Ne.symm hcc, Ne.symm hzo]
  · have e0 : w.certs.code = 0 := by simpa [createCodes] using hpre 0 (by omega)
    have e1 : w.tlsa.code = 0 := by simpa [createCodes] using hpre 1 (by omega)
    have e2 : w.keygen.code = 0 := by simpa [createCodes] using hpre 2 (by omega)
    have e3 : w.dsfromkey.code = 0 := by
      simpa [createCodes] using hpre 3 (by omega)
    have f4 : w.validate.code ≠ 0 := by simpa [createCodes] using hfail
    simp [createDomain, createDomainTry, generateCertificates, createZoneFile,
      generateDnssecKey, generateCorefile, generateDsRecord, generateCaddyFile,
      restartCoreDns, reloadCaddy, e0, e1, e2, e3, f4, hwz, hwc, hwcad, hrm,
      hcatch, finalContents, cmdsOf, isRunCmd, createCalls, createErrMsg,
      hz, hco, hca, Ne.symm hz, Ne.symm hco, Ne.symm hca, hzc, hcc, hzo,
      Ne.symm hzc, Ne.symm hcc, Ne.symm hzo]
  · have e0 : w.certs.code = 0 := by simpa [createCodes] using hpre 0 (by omega)
    have e1 : w.tlsa.code = 0 := by simpa [createCodes] using hpre 1 (by omega)
    have e2 : w.keygen.code = 0 := by simpa [createCodes] using hpre 2 (by omega)
    have e3 : w.dsfromkey.code = 0 := by
      simpa [createCodes] using hpre 3 (by omega)
    have e4 : w.validate.code = 0 := by
      simpa [createCodes] using hpre 4 (by omega)
    have f5 : w.restart.code ≠ 0 := by simpa [createCodes] using hfail
    simp [createDomain, createDomainTry, generateCertificates, createZoneFile,
      generateDnssecKey, generateCorefile, generateDsRecord, generateCaddyFile,
      restartCoreDns, reloadCaddy, e0, e1, e2, e3, e4, f5, hwz, hwc, hwcad,
      hrm, hcatch, finalContents, cmdsOf, isRunCmd, createCalls, createErrMsg,
      hz, hco, hca, Ne.symm hz, Ne.symm hco, Ne.symm hca, hzc, hcc, hzo,
      Ne.symm hzc, Ne.symm hcc, Ne.symm hzo]
  · have e0 : w.certs.code = 0 := by simpa [createCodes] using hpre 0 (by omega)
    have e1 : w.tlsa.code = 0 := by simpa [createCodes] using hpre 1 (by omega)
    have e2 : w.keygen.code = 0 := by simpa [createCodes] using hpre 2 (by omega)
    have e3 : w.dsfromkey.code = 0 := by
      simpa [createCodes] using hpre 3 (by omega)
    have e4 : w.validate.code = 0 := by
      simpa [createCodes] using hpre 4 (by omega)
    have e5 : w.restart.code = 0 := by
      simpa [createCodes] using hpre 5 (by omega)
    have f6 : w.reload.code ≠ 0 := by simpa [createCodes] using hfail
    simp [createDomain, createDomainTry, generateCertificates, createZoneFile,
      generateDnssecKey, generateCorefile, generateDsRecord, generateCaddyFile,
      restartCoreDns, reloadCaddy, e0, e1, e2, e3, e4, e5, f6, hwz, hwc, hwcad,
      hrm, hcatch, finalContents, cmdsOf, isRunCmd, createCalls, createErrMsg,
      hz, hco, hca, Ne.symm hz, Ne.symm hco, Ne.symm hca, hzc, hcc, hzo,
      Ne.symm hzc, Ne.symm hcc, Ne.symm hzo]

/-- C4 witness: the theorem instantiated at `cwKeygenFail` (first failure at
call 2, `dnssec-keygen`). -/
theorem claim_C4_w :
    (createDomain ecfg0 cwKeygenFail pCreate).2 = none
      ∧ cmdsOf (createDomain ecfg0 cwKeygenFail pCreate).1
          = (createCalls cwKeygenFail (extractDomain pCreate)).take 3
      ∧ finalContents (createDomain ecfg0 cwKeygenFail pCreate).1 pCreate
          = some (errTag ++ createErrMsg cwKeygenFail 2)
      ∧ Action.removeFile pCreate ∉ (createDomain ecfg0 cwKeygenFail pCreate).1
      ∧ (2 ≤ 2 → Action.writeFile (zonePath (extractDomain pCreate))
            (zoneContents ecfg0 (extractDomain pCreate)
              (jsTrim cwKeygenFail.tlsa.stdout))
          ∈ (createDomain ecfg0 cwKeygenFail pCreate).1)
      ∧ (3 ≤ 2 → Action.writeFile (corefilePath (extractDomain pCreate))
            (corefileContents (extractDomain pCreate)
              (jsTrim cwKeygenFail.keygen.stdout))
          ∈ (createDomain ecfg0 cwKeygenFail pCreate).1)
      ∧ (5 ≤ 2 → Action.writeFile (caddyfilePath (extractDomain pCreate))
            (caddyfileContents (extractDomain pCreate))
          ∈ (createDomain ecfg0 cwKeygenFail pCreate).1)
      ∧ (∀ q, Action.removeFile q ∈ (createDomain ecfg0 cwKeygenFail pCreate).1
          → q = caddyfilePath (extractDomain pCreate) ∧ 2 = 4) :=
  claim_C4 ecfg0 cwKeygenFail pCreate 2 (by decide) (by omega)
    (by intro j hj; interval_cases j <;> rfl) (by decide) rfl rfl rfl rfl rfl

/-- C10: a decommission run in which every artifact removal and both service
calls succeed but the final `Deno.remove` of the trigger file itself fails
(with a non-NotFound error of message `m`) is caught by the run's `catch`,
which writes `Error: <m>` back to the trigger path — re-creating the trigger
file with error text even though every artifact of the domain was removed
(and the trigger file itself is never recorded as deleted). -/
theorem claim_C10 (w : RemoveWorld) (path m : Str)
    (hacc : testRemoveDomainRegex path = true)
    (hinj : ∀ q, q ≠ path → w.inj q = none)
    (hfail : w.inj path = some m)
    (hres : w.restart.code = 0) (hrel : w.reload.code = 0)
    (hnd : w.fs.Nodup)
    (hcrt : crtPath (extractDomain path) ∈ w.fs)
    (hkey : keyPath (extractDomain path) ∈ w.fs)
    (hzone : zonePath (extractDomain path) ∈ w.fs)
    (hcore : corefilePath (extractDomain path) ∈ w.fs)
    (hcaddy : caddyfilePath (extractDomain path) ∈ w.fs)
    (hcatch : w.writeCatch = .ok ()) :
    (removeDomain w path).escaped = none
      ∧ finalContents (removeDomain w path).trace path = some (errTag ++ m)
      ∧ Action.removeFile path ∉ (removeDomain w path).trace
      ∧ Action.removeFile (crtPath (extractDomain path))
          ∈ (removeDomain w path).trace
      ∧ Action.removeFile (keyPath (extractDomain path))
          ∈ (removeDomain w path).trace
      ∧ Action.removeFile (zonePath (extractDomain path))
          ∈ (removeDomain w path).trace
      ∧ Action.removeFile (corefilePath (extractDomain path))
          ∈ (removeDomain w path).trace
      ∧ Action.removeFile (caddyfilePath (extractDomain path))
          ∈ (removeDomain w path).trace := by
  obtain ⟨u, rr, hdec, -, -⟩ := removeRegex_decomp hacc
  have hpform : path = homeSlash ++ (u ++ '/' :: rr) := by
    rw [hdec, List.append_assoc]
  have hne1 : path ≠ crtPath (extractDomain path) := by
    rw [hpform]; exact home_ne_crtPath _ _
  have hne2 : path ≠ keyPath (extractDomain path) := by
    rw [hpform]; exact home_ne_keyPath _ _
  have hne3 : path ≠ zonePath (extractDomain path) := by
    rw [hpform]; exact home_ne_zonePath _ _
  have hne4 : path ≠ corefilePath (extractDomain path) := by
    rw [hpform]; exact home_ne_corefilePath _ _
  have hne5 : path ≠ caddyfilePath (extractDomain path) := by
    rw [hpform]; exact home_ne_caddyfilePath _ _
  have hne6 : (keysGlobPre (extractDomain path)).isPrefixOf path = false := by
    rw [hpform]; exact keysGlob_not_pre _ _
  obtain ⟨fs5, tr5, heq, hsub, hc5, hz5, ho5, ha5, hg5, hpres, hshape,
    hm1, hm2, hm3, hm4, hm5⟩ :=
    removeDomainTry_steps w path hres hrel hnd hinj hne1 hne2 hne3 hne4 hne5 hne6
  have htry : removeDomainTry w path = (fs5, tr5, Except.error m) := by
    rw [heq, tryRemove_inj hfail]
  have hrun : removeDomain w path
      = ⟨fs5, tr5 ++ [Action.writeFile path (errTag ++ m)], none⟩ := by
    simp [removeDomain, htry, hcatch]
  rw [hrun]
  refine ⟨rfl, ?_, ?_, ?_, ?_, ?_, ?_, ?_⟩
  · exact finalContents_last_write tr5 path (errTag ++ m)
  · intro hmem
    rcases List.mem_append.mp hmem with hmem | hmem
    · rcases hshape _ hmem with ⟨q, hq, hEq⟩ | hEq | hEq
      · injection hEq with h'
        exact hq h'.symm
      · simp at hEq
      · simp at hEq
    · simp at hmem
  · exact List.mem_append.mpr (Or.inl (hm1 hcrt))
  · exact List.mem_append.mpr (Or.inl (hm2 hcrt hkey))
  · exact List.mem_append.mpr (Or.inl (hm3 hzone))
  · exact List.mem_append.mpr (Or.inl (hm4 hcore))
  · exact List.mem_append.mpr (Or.inl (hm5 hcaddy))

/-- C10 witness: the theorem instantiated over `fsAlice` with a permission
error injected on the trigger deletion. -/
theorem claim_C10_w :
    (removeDomain rwTrigFail pRemove).escaped = none
      ∧ finalContents (removeDomain rwTrigFail pRemove).trace pRemove
          = some (errTag ++ "permission denied".data)
      ∧ Action.removeFile pRemove ∉ (removeDomain rwTrigFail pRemove).trace
      ∧ Action.removeFile (crtPath (extractDomain pRemove))
          ∈ (removeDomain rwTrigFail pRemove).trace
      ∧ Action.removeFile (keyPath (extractDomain pRemove))
          ∈ (removeDomain rwTrigFail pRemove).trace
      ∧ Action.removeFile (zonePath (extractDomain pRemove))
          ∈ (removeDomain rwTrigFail pRemove).trace
      ∧ Action.removeFile (corefilePath (extractDomain pRemove))
          ∈ (removeDomain rwTrigFail pRemove).trace
      ∧ Action.removeFile (caddyfilePath (extractDomain pRemove))
          ∈ (removeDomain rwTrigFail pRemove).trace :=
  claim_C10 rwTrigFail pRemove "permission denied".data (by decide)
    (fun q hq => by simp [rwTrigFail, injTrig, hq]) (by simp [rwTrigFail, injTrig])
    rfl rfl (by decide) (by decide) (by decide) (by decide) (by decide)
    (by decide) rfl

/-- C5: each individual removal step of the decommission pipeline treats a
missing file as success (state unchanged, no action, no error) while
propagating any injected non-NotFound failure (e.g. a permission error) as
fatal; consequently, after a successful decommission, a second decommission
run on the resulting file set (with the trigger file freshly re-created) is
a no-op that never reports an error: it removes no artifact, performs only
the two service calls and the deletion of the new trigger, and returns the
file set exactly as the first run left it. -/
theorem claim_C5 :
    (∀ (inj : Str → Option Str) (fs : List Str) (d : Str),
        inj (crtPath d) = none → crtPath d ∉ fs
        → removeCertificates inj fs d = (fs, [], .ok ()))
  ∧ (∀ (inj : Str → Option Str) (fs : List Str) (d m : Str),
        inj (crtPath d) = some m
        → removeCertificates inj fs d = (fs, [], .error m))
  ∧ (∀ (inj : Str → Option Str) (fs : List Str) (d : Str),
        inj (zonePath d) = none → zonePath d ∉ fs
        → removeZoneFile inj fs d = (fs, [], .ok ()))
  ∧ (∀ (inj : Str → Option Str) (fs : List Str) (d m : Str),
        inj (zonePath d) = some m
        → removeZoneFile inj fs d = (fs, [], .error m))
  ∧ (∀ (inj : Str → Option Str) (fs : List Str) (d : Str),
        (∀ q ∈ fs, (keysGlobPre d).isPrefixOf q = false)
        → removeDnssecKey inj fs d = (fs, [], .ok ()))
  ∧ (∀ (inj : Str → Option Str) (fs : List Str) (d : Str),
        inj (corefilePath d) = none → corefilePath d ∉ fs
        → removeCorefile inj fs d = (fs, [], .ok ()))
  ∧ (∀ (inj : Str → Option Str) (fs : List Str) (d m : Str),
        inj (corefilePath d) = some m
        → removeCorefile inj fs d = (fs, [], .error m))
  ∧ (∀ (inj : Str → Option Str) (fs : List Str) (d : Str),
        inj (caddyfilePath d) = none → caddyfilePath d ∉ fs
        → removeCaddyfile inj fs d = (fs, [], .ok ()))
  ∧ (∀ (inj : Str → Option Str) (fs : List Str) (d m : Str),
        inj (caddyfilePath d) = some m
        → removeCaddyfile inj fs d = (fs, [], .error m))
  ∧ (∀ (fs : List Str) (path : Str) (c1 c2 c3 c4 : CmdResult)
        (wc1 wc2 : Except Str Unit),
        testRemoveDomainRegex path = true → fs.Nodup → path ∈ fs
        → c1.code = 0 → c2.code = 0 → c3.code = 0 → c4.code = 0
        → (removeDomain ⟨fs, injNone, c1, c2, wc1⟩ path).escaped = none
          ∧ removeDomain
              ⟨path :: (removeDomain ⟨fs, injNone, c1, c2, wc1⟩ path).fs,
                injNone, c3, c4, wc2⟩ path
            = ⟨(removeDomain ⟨fs, injNone, c1, c2, wc1⟩ path).fs,
               [aRestart, aReload, Action.removeFile path], none⟩) := by
  refine ⟨fun inj fs d h1 h2 => removeCertificates_absent h1 h2,
    fun inj fs d m h1 => removeCertificates_err h1,
    fun inj fs d h1 h2 => removeTolerating_absent h1 h2,
    fun inj fs d m h1 => removeTolerating_err h1,
    fun inj fs d h => removeDnssecKey_empty inj fs d h,
    fun inj fs d h1 h2 => removeTolerating_absent h1 h2,
    fun inj fs d m h1 => removeTolerating_err h1,
    fun inj fs d h1 h2 => removeTolerating_absent h1 h2,
    fun inj fs d m h1 => removeTolerating_err h1, ?_⟩
  intro fs path c1 c2 c3 c4 wc1 wc2 hacc hnd hmem h1 h2 h3 h4
  obtain ⟨u, rr, hdec, -, -⟩ := removeRegex_decomp hacc
  have hpform : path = homeSlash ++ (u ++ '/' :: rr) := by
    rw [hdec, List.append_assoc]
  have hne1 : path ≠ crtPath (extractDomain path) := by
    rw [hpform]; exact home_ne_crtPath _ _
  have hne2 : path ≠ keyPath (extractDomain path) := by
    rw [hpform]; exact home_ne_keyPath _ _
  have hne3 : path ≠ zonePath (extractDomain path) := by
    rw [hpform]; exact home_ne_zonePath _ _
  have hne4 : path ≠ corefilePath (extractDomain path) := by
    rw [hpform]; exact home_ne_corefilePath _ _
  have hne5 : path ≠ caddyfilePath (extractDomain path) := by
    rw [hpform]; exact home_ne_caddyfilePath _ _
  have hne6 : (keysGlobPre (extractDomain path)).isPrefixOf path = false := by
    rw [hpform]; exact keysGlob_not_pre _ _
  set w1 : RemoveWorld := ⟨fs, injNone, c1, c2, wc1⟩ with hw1
  have hinjN : ∀ q, q ≠ path → w1.inj q = none := fun q _ => rfl
  obtain ⟨fs5, tr5, heq, hsub, hc5, hz5, ho5, ha5, hg5, hpres, hshape,
    hm1, hm2, hm3, hm4, hm5⟩ :=
    removeDomainTry_steps w1 path h1 h2 hnd hinjN hne1 hne2 hne3 hne4 hne5 hne6
  have hmemPath5 : path ∈ fs5 := hpres path hmem hne1 hne2 hne3 hne4 hne5 hne6
  have htry1 : removeDomainTry w1 path
      = (fs5.filter (fun q => q != path), tr5 ++ [Action.removeFile path],
         Except.ok ()) := by
    rw [heq, tryRemove_mem rfl hmemPath5]
  have hrun1 : removeDomain w1 path
      = ⟨fs5.filter (fun q => q != path), tr5 ++ [Action.removeFile path],
         none⟩ := by
    simp [removeDomain, htry1]
  set fs6 := fs5.filter (fun q => q != path) with hfs6
  have hnp6 : path ∉ fs6 := by
    intro hm
    have h' := (List.mem_filter.mp hm).2
    simp at h'
  have hcrt6 : crtPath (extractDomain path) ∉ fs6 :=
    fun hm => hc5 (List.mem_of_mem_filter hm)
  have hz6 : zonePath (extractDomain path) ∉ fs6 :=
    fun hm => hz5 (List.mem_of_mem_filter hm)
  have ho6 : corefilePath (extractDomain path) ∉ fs6 :=
    fun hm => ho5 (List.mem_of_mem_filter hm)
  have ha6 : caddyfilePath (extractDomain path) ∉ fs6 :=
    fun hm => ha5 (List.mem_of_mem_filter hm)
  have hg6 : ∀ q ∈ fs6, (keysGlobPre (extractDomain path)).isPrefixOf q
      = false := fun q hm => hg5 q (List.mem_of_mem_filter hm)
  have s1 : removeCertificates injNone (path :: fs6) (extractDomain path)
      = (path :: fs6, [], Except.ok ()) := by
    refine removeCertificates_absent rfl ?_
    intro hm
    rcases List.mem_cons.mp hm with hm | hm
    · exact hne1 hm.symm
    · exact hcrt6 hm
  have s2 : removeZoneFile injNone (path :: fs6) (extractDomain path)
      = (path :: fs6, [], Except.ok ()) := by
    refine removeTolerating_absent rfl ?_
    intro hm
    rcases List.mem_cons.mp hm with hm | hm
    · exact hne3 hm.symm
    · exact hz6 hm
  have s3 : removeDnssecKey injNone (path :: fs6) (extractDomain path)
      = (path :: fs6, [], Except.ok ()) := by
    refine removeDnssecKey_empty _ _ _ ?_
    intro q hq
    rcases List.mem_cons.mp hq with hq | hq
    · rw [hq]; exact hne6
    · exact hg6 q hq
  have s4 : removeCorefile injNone (path :: fs6) (extractDomain path)
      = (path :: fs6, [], Except.ok ()) := by
    refine removeTolerating_absent rfl ?_
    intro hm
    rcases List.mem_cons.mp hm with hm | hm
    · exact hne4 hm.symm
    · exact ho6 hm
  have s5 : removeCaddyfile injNone (path :: fs6) (extractDomain path)
      = (path :: fs6, [], Except.ok ()) := by
    refine removeTolerating_absent rfl ?_
    intro hm
    rcases List.mem_cons.mp hm with hm | hm
    · exact hne5 hm.symm
    · exact ha6 hm
  have hfin : tryRemove injNone (path :: fs6) path
      = ((path :: fs6).filter (fun q => q != path), RmRes.ok) :=
    tryRemove_mem rfl (List.mem_cons_self _ _)
  have hfil : (path :: fs6).filter (fun q => q != path) = fs6 := by
    simp [List.filter_cons, filter_bne_of_not_mem hnp6]
  have htry2 : removeDomainTry ⟨path :: fs6, injNone, c3, c4, wc2⟩ path
      = (fs6, [aRestart, aReload, Action.removeFile path], Except.ok ()) := by
    simp only [removeDomainTry, s1, s2, s3, s4, s5, restartCoreDns_ok h3,
      reloadCaddy_ok h4, hfin, hfil]
    simp [aRestart, aReload]
  have hrun2 : removeDomain ⟨path :: fs6, injNone, c3, c4, wc2⟩ path
      = ⟨fs6, [aRestart, aReload, Action.removeFile path], none⟩ := by
    simp [removeDomain, htry2]
  refine ⟨by rw [hrun1], ?_⟩
  simp only [hrun1]
  exact hrun2

/-- C5 witness: the double-run statement instantiated over `fsAlice`. -/
theorem claim_C5_w :
    (removeDomain ⟨fsAlice, injNone, cmdOk, cmdOk, .ok ()⟩ pRemove).escaped
        = none
      ∧ removeDomain
          ⟨pRemove :: (removeDomain ⟨fsAlice, injNone, cmdOk, cmdOk,
              .ok ()⟩ pRemove).fs, injNone, cmdOk, cmdOk, .ok ()⟩ pRemove
        = ⟨(removeDomain ⟨fsAlice, injNone, cmdOk, cmdOk, .ok ()⟩ pRemove).fs,
           [aRestart, aReload, Action.removeFile pRemove], none⟩ :=
  claim_C5.2.2.2.2.2.2.2.2.2 fsAlice pRemove cmdOk cmdOk cmdOk cmdOk
    (.ok ()) (.ok ()) (by decide) (by decide) (by decide) rfl rfl rfl rfl

/-- C8: per pipeline run, at most one recorded operation ever touches the
trigger file; and on any run that does not escape (its catch status write
succeeds), exactly one of the three outcomes is applied to the trigger —
the provisioning success-message write, an `Error: <message>` write (failure
of either pipeline), or the deletion of the trigger file (decommission
success) — never more than one write/delete per trigger. -/
theorem claim_C8 (ecfg : EnvCfg) (w : CreateWorld) (v : RemoveWorld)
    (cpath rpath : Str)
    (hcacc : testDomainRegex cpath = true)
    (hracc : testRemoveDomainRegex rpath = true) :
    (((createDomain ecfg w cpath).1.filter (isTrigOp cpath)).length ≤ 1)
    ∧ (((removeDomain v rpath).trace.filter (isTrigOp rpath)).length ≤ 1)
    ∧ ((∃ ds tl, (createDomain ecfg w cpath).1.filter (isTrigOp cpath)
          = [Action.writeFile cpath
              (successMessage ecfg (extractDomain cpath) ds tl)])
        ∨ (∃ e, (createDomain ecfg w cpath).1.filter (isTrigOp cpath)
            = [Action.writeFile cpath (errTag ++ e)])
        ∨ (createDomain ecfg w cpath).1.filter (isTrigOp cpath) = [])
    ∧ (w.writeTriggerCatch = .ok () →
        (createDomain ecfg w cpath).2 = none
        ∧ ((∃ ds tl, (createDomain ecfg w cpath).1.filter (isTrigOp cpath)
              = [Action.writeFile cpath
                  (successMessage ecfg (extractDomain cpath) ds tl)])
            ∨ ∃ e, (createDomain ecfg w cpath).1.filter (isTrigOp cpath)
              = [Action.writeFile cpath (errTag ++ e)]))
    ∧ ((removeDomain v rpath).trace.filter (isTrigOp rpath)
          = [Action.removeFile rpath]
        ∨ (∃ e, (removeDomain v rpath).trace.filter (isTrigOp rpath)
            = [Action.writeFile rpath (errTag ++ e)])
        ∨ (removeDomain v rpath).trace.filter (isTrigOp rpath) = [])
    ∧ (v.writeCatch = .ok () →
        (removeDomain v rpath).escaped = none
        ∧ ((removeDomain v rpath).trace.filter (isTrigOp rpath)
              = [Action.removeFile rpath]
            ∨ ∃ e, (removeDomain v rpath).trace.filter (isTrigOp rpath)
              = [Action.writeFile rpath (errTag ++ e)])) :=
  ⟨(createDomain_trigOps ecfg w cpath hcacc).1,
   (removeDomain_trigOps v rpath hracc).1,
   (createDomain_trigOps ecfg w cpath hcacc).2.1,
   (createDomain_trigOps ecfg w cpath hcacc).2.2,
   (removeDomain_trigOps v rpath hracc).2.1,
   (removeDomain_trigOps v rpath hracc).2.2⟩

/-- C8 witness: the theorem instantiated at the all-success worlds. -/
theorem claim_C8_w :
    (((createDomain ecfg0 cwOk pCreate).1.filter (isTrigOp pCreate)).length ≤ 1)
    ∧ (((removeDomain rwOk pRemove).trace.filter (isTrigOp pRemove)).length ≤ 1)
    ∧ ((∃ ds tl, (createDomain ecfg0 cwOk pCreate).1.filter (isTrigOp pCreate)
          = [Action.writeFile pCreate
              (successMessage ecfg0 (extractDomain pCreate) ds tl)])
        ∨ (∃ e, (createDomain ecfg0 cwOk pCreate).1.filter (isTrigOp pCreate)
            = [Action.writeFile pCreate (errTag ++ e)])
        ∨ (createDomain ecfg0 cwOk pCreate).1.filter (isTrigOp pCreate) = [])
    ∧ (cwOk.writeTriggerCatch = .ok () →
        (createDomain ecfg0 cwOk pCreate).2 = none
        ∧ ((∃ ds tl, (createDomain ecfg0 cwOk pCreate).1.filter
              (isTrigOp pCreate)
              = [Action.writeFile pCreate
                  (successMessage ecfg0 (extractDomain pCreate) ds tl)])
            ∨ ∃ e, (createDomain ecfg0 cwOk pCreate).1.filter
              (isTrigOp pCreate)
              = [Action.writeFile pCreate (errTag ++ e)]))
    ∧ ((removeDomain rwOk pRemove).trace.filter (isTrigOp pRemove)
          = [Action.removeFile pRemove]
        ∨ (∃ e, (removeDomain rwOk pRemove).trace.filter (isTrigOp pRemove)
            = [Action.writeFile pRemove (errTag ++ e)])
        ∨ (removeDomain rwOk pRemove).trace.filter (isTrigOp pRemove) = [])
    ∧ (rwOk.writeCatch = .ok () →
        (removeDomain rwOk pRemove).escaped = none
        ∧ ((removeDomain rwOk pRemove).trace.filter (isTrigOp pRemove)
              = [Action.removeFile pRemove]
            ∨ ∃ e, (removeDomain rwOk pRemove).trace.filter (isTrigOp pRemove)
              = [Action.writeFile pRemove (errTag ++ e)])) :=
  claim_C8 ecfg0 cwOk rwOk pCreate pRemove (by decide) (by decide)

theorem processPath_ok (ecfg : EnvCfg) (it : PathItem)
    (h1 : ∃ uid, it.statUid = .ok uid)
    (h2 : it.cw.writeTriggerCatch = .ok ())
    (h3 : it.rw.writeCatch = .ok ()) :
    ∃ t, processPath ecfg it = .ok t := by
  obtain ⟨uid, hs⟩ := h1
  cases hd : testDomainRegex it.path
  · cases hr : testRemoveDomainRegex it.path
    · exact ⟨[], by simp [processPath, hd, hr]⟩
    · rcases eq_or_ne uid 0 with hu | hu
      · subst hu
        exact ⟨[], by simp [processPath, hd, hr, hs]⟩
      · have hesc := removeDomain_no_escape it.rw it.path h3
        refine ⟨(removeDomain it.rw it.path).trace, ?_⟩
        simp [processPath, hd, hr, hs, hu, hesc]
  · rcases eq_or_ne uid 0 with hu | hu
    · subst hu
      exact ⟨[], by simp [processPath, hd, hs]⟩
    · have hesc := createDomain_no_escape ecfg it.cw it.path h2
      rcases hc : createDomain ecfg it.cw it.path with ⟨t, esc⟩
      have hesc' : esc = none := by rw [hc] at hesc; exact hesc
      subst hesc'
      exact ⟨t, by simp [processPath, hd, hs, hu, hc]⟩

theorem processPaths_ok (ecfg : EnvCfg) :
    ∀ its : List PathItem,
      (∀ it ∈ its, (∃ uid, it.statUid = .ok uid)
        ∧ it.cw.writeTriggerCatch = .ok () ∧ it.rw.writeCatch = .ok ()) →
      ∃ t, processPaths ecfg its = .ok t
  | [], _ => ⟨[], rfl⟩
  | it :: rest, h => by
    obtain ⟨h1, h2, h3⟩ := h it (List.mem_cons_self _ _)
    obtain ⟨t1, ht1⟩ := processPath_ok ecfg it h1 h2 h3
    obtain ⟨t2, ht2⟩ := processPaths_ok ecfg rest
      (fun i hi => h i (List.mem_cons_of_mem _ hi))
    exact ⟨t1 ++ t2, by simp [processPaths, ht1, ht2]⟩

theorem processEvents_ok (ecfg : EnvCfg) :
    ∀ evs : List FsEvent,
      (∀ ev ∈ evs, ∀ it ∈ ev.paths, (∃ uid, it.statUid = .ok uid)
        ∧ it.cw.writeTriggerCatch = .ok () ∧ it.rw.writeCatch = .ok ()) →
      ∃ t, processEvents ecfg evs = .ok t
  | [], _ => ⟨[], rfl⟩
  | ev :: rest, h => by
    have hev : ∃ t, processEvent ecfg ev = .ok t := by
      cases hk : ev.kind
      case create =>
        obtain ⟨t, ht⟩ := processPaths_ok ecfg ev.paths
          (h ev (List.mem_cons_self _ _))
        exact ⟨t, by simp [processEvent, hk, ht]⟩
      all_goals exact ⟨[], by simp [processEvent, hk]⟩
    obtain ⟨t1, ht1⟩ := hev
    obtain ⟨t2, ht2⟩ := processEvents_ok ecfg rest
      (fun e he it hit => h e (List.mem_cons_of_mem _ he) it hit)
    exact ⟨t1 ++ t2, by simp [processEvents, ht1, ht2]⟩

/-- C9 counterexample: the claim says a non-tolerated error raised while
writing status back to the trigger file is caught within the run and never
escapes to terminate the driving loop.  It is FALSE: in the first event the
certificate step fails and the catch-block status write itself fails with
`disk full`; that rejection escapes `createDomain`, the `for await` loop has
no try/catch, and the loop dies — the second (entirely benign) event is never
processed, although on its own it would be. -/
theorem claim_C9_cex :
    processEvents ecfg0 [evEscape, evOk] = Except.error "disk full".data
      ∧ ∃ tr, processEvents ecfg0 [evOk] = Except.ok tr :=
  ⟨rfl, _, rfl⟩

/-- C9 (amended): an error raised during a pipeline's step sequence is always
caught by that run's catch block, so whenever every `Deno.stat` call succeeds
and every catch status write succeeds, no error escapes any run and the loop
processes the entire event sequence; however an error from `Deno.stat` or
from the catch status write itself is NOT caught and terminates the loop
(see the counterexample). -/
theorem claim_C9 (ecfg : EnvCfg) (evs : List FsEvent)
    (h : ∀ ev ∈ evs, ∀ it ∈ ev.paths, (∃ uid, it.statUid = .ok uid)
      ∧ it.cw.writeTriggerCatch = .ok () ∧ it.rw.writeCatch = .ok ()) :
    ∃ t, processEvents ecfg evs = .ok t :=
  processEvents_ok ecfg evs h

/-- C9 witness: the amended statement instantiated at a single benign create
event. -/
theorem claim_C9_w : ∃ t, processEvents ecfg0 [evOk] = .ok t :=
  claim_C9 ecfg0 [evOk] (by
    intro ev hev it hit
    rw [List.mem_singleton] at hev
    subst hev
    have hit' : it = itemOk := by
      simpa [evOk] using hit
    subst hit'
    exact ⟨⟨1000, rfl⟩, rfl, rfl⟩)

end PubnixWatcher
